import Mathlib

/-!
# Task definition loading (`pkg/task_def.go`)

A shallow embedding of the definition-loading core of the task runner:
the step-loader registry (`Register`, `LoadStep`), step synthesis
(`readStepsFromStepDefs`), the schema resolver (`TaskDef.UnmarshalYAML`,
`TransformV2FlowConfigMapToArray`) and the dynamic-map path
(`TransformV3TaskDefMapToArray`), followed by theorems about them.

Conventions of the embedding:

* a Go `error` that may be `nil` is an `Option Error`; a pointer that may be
  `nil` is an `Option`;
* a Go map is the list of its entries in the order `range` enumerates them
  (the language leaves that order unspecified); its keys are pairwise distinct;
  a map that the code writes to is an `Option` of that list, `none` being the
  `nil` map;
* a Go slice is a `List` (a `nil` slice and an empty slice are both `[]`,
  the code only ever takes `len` of them);
* a Go function that may panic returns an `Outcome`.
-/

namespace Variant

/-! ## Values, errors, outcomes -/

/-- Dynamic Go values (`interface{}`) as the YAML decoder produces them. -/
inductive Value where
  | null
  | str (s : String)
  | bool (b : Bool)
  | int (i : Int)
  | seq (xs : List Value)
  | imap (kvs : List (Value × Value))
  | smap (kvs : List (String × Value))

/-- The Go type `map[interface{}]interface{}`: entries in enumeration order. -/
abbrev RawMap := List (Value × Value)

/-- The Go type `map[string]interface{}`: entries in enumeration order. -/
abbrev StrMap := List (String × Value)

/-- Go comparison `v == s` of an `interface{}` with a string: true exactly when
the dynamic type is `string` and the contents agree. -/
def Value.eqStr : Value → String → Bool
  | .str k, s => decide (k = s)
  | _, _ => false

/-- Go comparison `v == nil` of an `interface{}`. -/
def Value.isNil : Value → Bool
  | .null => true
  | _ => false

/-- Go map read `m[key]` with a string key: the entry's value, `nil` when the
key is absent. -/
def RawMap.get (m : RawMap) (key : String) : Value :=
  match m.find? (fun kv => kv.1.eqStr key) with
  | some kv => kv.2
  | none => Value.null

/-- Go map write `m[key] = v` with a string key: overwrite in place when the
key is present, add an entry otherwise. -/
def RawMap.set (m : RawMap) (key : String) (v : Value) : RawMap :=
  if m.any (fun kv => kv.1.eqStr key) then
    m.map (fun kv => if kv.1.eqStr key then (kv.1, v) else kv)
  else
    m ++ [(Value.str key, v)]

/-- Go map write `m[key] = v` on a `map[string]interface{}`. -/
def StrMap.set (m : StrMap) (key : String) (v : Value) : StrMap :=
  if m.any (fun kv => decide (kv.1 = key)) then
    m.map (fun kv => if kv.1 = key then (kv.1, v) else kv)
  else
    m ++ [(key, v)]

/-- Go map read `m[key]` on a `map[string]interface{}`. -/
def StrMap.get (m : StrMap) (key : String) : Value :=
  match m.find? (fun kv => decide (kv.1 = key)) with
  | some kv => kv.2
  | none => Value.null

/-- Go `error` values built by `fmt.Errorf`, `errors.Wrapf` and
`errors.WithStack`. -/
inductive Error where
  | errorf (msg : String)
  | wrap (cause : Error) (msg : String)
  | withStack (cause : Error)
  deriving DecidableEq, Repr

/-- The `Error()` text of an error: a wrapped error prints its annotation, a
colon and the text of its cause. -/
def Error.text : Error → String
  | .errorf msg => msg
  | .wrap cause msg => msg ++ ": " ++ cause.text
  | .withStack cause => cause.text

/-- Characters of `fmt.Sprintf` for the one verb this package uses, `%d`: each
`%d` consumes the next argument and prints it in decimal; a `%d` with no
argument left prints `%!d(MISSING)`. -/
def fmt.sprintfChars : List Char → List Nat → List Char
  | '%' :: 'd' :: rest, a :: args => (Nat.repr a).data ++ fmt.sprintfChars rest args
  | '%' :: 'd' :: rest, [] => "%!d(MISSING)".data ++ fmt.sprintfChars rest []
  | c :: rest, args => c :: fmt.sprintfChars rest args
  | [], _ => []

/-- Go `fmt.Sprintf(format, args...)` restricted to `%d`. -/
def fmt.Sprintf (format : String) (args : List Nat) : String :=
  String.mk (fmt.sprintfChars format.data args)

/-- Go `fmt.Errorf(format, args...)`. -/
def fmt.Errorf (format : String) (args : List Nat) : Error :=
  Error.errorf (fmt.Sprintf format args)

/-- The `errors.Wrapf(err, format, args...)` of `github.com/pkg/errors`: `nil`
stays `nil`, any other error is annotated with the formatted message. -/
def errors.Wrapf (err : Option Error) (format : String) (args : List Nat) : Option Error :=
  match err with
  | none => none
  | some e => some (Error.wrap e (fmt.Sprintf format args))

/-- The `errors.WithStack(err)` of `github.com/pkg/errors`: `nil` stays `nil`. -/
def errors.WithStack (err : Option Error) : Option Error :=
  match err with
  | none => none
  | some e => some (Error.withStack e)

/-- What a call of a Go function comes to: it returns a value, it panics, or
it never returns. -/
inductive Outcome (α : Type) where
  | ret (a : α)
  | panic (msg : String)
  | diverge

/-- Sequencing of calls: a panic or a divergence of the first call is the
outcome of the whole. -/
def Outcome.bind {α β : Type} (x : Outcome α) (f : α → Outcome β) : Outcome β :=
  match x with
  | .ret a => f a
  | .panic msg => .panic msg
  | .diverge => .diverge

/-- The runtime panic of dereferencing a `nil` pointer. -/
def nilDereference : String :=
  "runtime error: invalid memory address or nil pointer dereference"

/-! ## Steps and the loader registry -/

/-- Modelled from the spec: the type `StepDef` and its constructor `NewStepDef`
are declared outside `task_def.go`. Spec §3: a string-keyed configuration
mapping with arbitrary nested values, passed into loaders. -/
structure StepDef where
  raw : StrMap

/-- Modelled from the spec: `NewStepDef` wraps the string-keyed mapping. -/
def NewStepDef (raw : StrMap) : StepDef := ⟨raw⟩

/-- Modelled from the spec: the interface `Step` is declared outside
`task_def.go`. Spec §3: the result of loading a StepDef, whose internals the
core never inspects; `ident` tells steps apart. -/
structure Step where
  ident : String
  deriving DecidableEq, Repr

/-- The pair `(Step, error)` a load returns; the step is an interface value and
may be `nil`. -/
abbrev LoadResult := Outcome (Option Step × Option Error)

/-- The loading context handed to a loader: one operation, resolving a nested
StepDef. -/
structure LoadingContext where
  LoadStep : StepDef → LoadResult

/-- Modelled from the spec: the interface `StepLoader` is declared outside
`task_def.go`. Its one method receives the StepDef and the loading context and
returns a step or a failure (spec §6). -/
structure StepLoader where
  LoadStep : StepDef → LoadingContext → LoadResult

/-- The package variable `stepLoaders` after `init()`. -/
def init : List StepLoader := []

/-- `Register`: append the loader to the registry. -/
def Register (stepLoaders : List StepLoader) (stepLoader : StepLoader) : List StepLoader :=
  stepLoaders ++ [stepLoader]

/-- The registry reached from `init()` by registering the loaders of a list in
order. -/
def registered (loaders : List StepLoader) : List StepLoader :=
  loaders.foldl Register init

/-- The `for _, loader := range stepLoaders` loop of `LoadStep`, with the
running value of `lastError`: the first loader returning a `nil` error ends the
loop with its step; when the loop runs out the result is
`nil, errors.Wrapf(lastError, "all loader failed to load step")`. -/
def loadStepLoop (context : LoadingContext) (config : StepDef) :
    List StepLoader → Option Error → LoadResult
  | [], lastError => .ret (none, errors.Wrapf lastError "all loader failed to load step" [])
  | loader :: rest, _ =>
    match loader.LoadStep config context with
    | .ret (s, none) => .ret (s, none)
    | .ret (_, some e) => loadStepLoop context config rest (some e)
    | .panic msg => .panic msg
    | .diverge => .diverge

/-- The context `stepLoadingContextImpl{}`: its `LoadStep` is the package-level
`LoadStep`, so a loader may re-enter the registry. `depth` bounds how many
nested re-entries are followed; beyond it the call counts as not returning. -/
def stepLoadingContextImpl : Nat → List StepLoader → LoadingContext
  | 0, _ => ⟨fun _ => .diverge⟩
  | depth + 1, stepLoaders =>
    ⟨fun config =>
      loadStepLoop (stepLoadingContextImpl depth stepLoaders) config stepLoaders none⟩

/-- `LoadStep(config)` on the registry `stepLoaders`. -/
def LoadStep (depth : Nat) (stepLoaders : List StepLoader) (config : StepDef) : LoadResult :=
  loadStepLoop (stepLoadingContextImpl depth stepLoaders) config stepLoaders none

/-! ## Step synthesis -/

/-- Modelled from the spec: `maputil.CastKeysToStrings` lives in
`pkg/util/maputil`, outside `task_def.go`. Spec §4.3: all configuration keys
must be representable as strings, a key that is not a string is an error. The
spec says nothing of the values; the model carries them over as they are. -/
def CastKeysToStrings : RawMap → Except Error StrMap
  | [] => .ok []
  | (Value.str k, v) :: rest =>
    match CastKeysToStrings rest with
    | .ok converted => .ok ((k, v) :: converted)
    | .error e => .error e
  | _ :: _ => .error (Error.errorf "unexpected type of key in map: expected string")

/-- The runtime panic of a write into a `nil` map. -/
def nilMapWrite : String :=
  "assignment to entry in nil map"

/-- Go map read `m[key]` on a step entry, which may be a `nil` map (`none`):
reading a `nil` map gives `nil`. -/
def RawMap.read (m : Option RawMap) (key : String) : Value :=
  match m with
  | none => Value.null
  | some entries => RawMap.get entries key

/-- Go map write `m[key] = v` on a step entry, which may be a `nil` map
(`none`): writing into a `nil` map panics. -/
def RawMap.write (m : Option RawMap) (key : String) (v : Value) : Outcome (Option RawMap) :=
  match m with
  | none => .panic nilMapWrite
  | some entries => .ret (some (RawMap.set entries key v))

/-- The `if stepDef["name"] == "" || stepDef["name"] == nil` statement of the
step loop: a missing or empty name is replaced by the default name. On a `nil`
entry the read gives `nil`, the test holds and the write panics. -/
def assignDefaultName (stepDef : Option RawMap) (defaultName : String) :
    Outcome (Option RawMap) :=
  if (RawMap.read stepDef "name").eqStr "" || (RawMap.read stepDef "name").isNil then
    RawMap.write stepDef "name" (Value.str defaultName)
  else
    .ret stepDef

/-- The `for i, stepDef := range stepDefs` loop of `readStepsFromStepDefs`,
started at index `i` with the steps collected so far in `result`. An entry is
`none` when it is a `nil` map; the key cast ranges over the entries of the map
(none for a `nil` map). -/
def readStepsLoop (depth : Nat) (stepLoaders : List StepLoader) :
    List (Option RawMap) → Nat → List (Option Step) →
      Outcome (List (Option Step) × Option Error)
  | [], _, result => .ret (result, none)
  | stepDef :: rest, i, result =>
    let defaultName := fmt.Sprintf "step-%d" [i + 1]
    match assignDefaultName stepDef defaultName with
    | .panic msg => .panic msg
    | .diverge => .diverge
    | .ret named =>
      match CastKeysToStrings (named.getD []) with
      | .error castErr => .panic castErr.text
      | .ok converted =>
        match LoadStep depth stepLoaders (NewStepDef converted) with
        | .ret (s, none) => readStepsLoop depth stepLoaders rest (i + 1) (result ++ [s])
        | .ret (_, some err) => .ret ([], errors.Wrapf (some err) "Error reading step[%d]" [])
        | .panic msg => .panic msg
        | .diverge => .diverge

/-- The raw definition synthesized for a script: the map literal of
`readStepsFromStepDefs` plus `runner` when the runner is not `nil`. -/
def scriptStepRaw (script : String) (runner : Option StrMap) : StrMap :=
  let raw : StrMap :=
    [("name", Value.str "script"), ("script", Value.str script), ("silent", Value.bool false)]
  match runner with
  | some r => raw.set "runner" (Value.smap r)
  | none => raw

/-- `readStepsFromStepDefs(script, runner, stepDefs)` on the registry
`stepLoaders`. -/
def readStepsFromStepDefs (depth : Nat) (stepLoaders : List StepLoader) (script : String)
    (runner : Option StrMap) (stepDefs : List (Option RawMap)) :
    Outcome (List (Option Step) × Option Error) :=
  if script ≠ "" then
    if stepDefs.length > 0 then
      .ret ([], some (fmt.Errorf "both script and steps exist." []))
    else
      match LoadStep depth stepLoaders (NewStepDef (scriptStepRaw script runner)) with
      | .ret (_, some err) => .panic ("step failed to load: " ++ err.text)
      | .ret (s, none) => .ret ([s], none)
      | .panic msg => .panic msg
      | .diverge => .diverge
  else
    readStepsLoop depth stepLoaders stepDefs 0 []

/-! ## Task definitions -/

/-- Modelled from the spec: the struct `InputConfig` is declared outside
`task_def.go`. Spec §3: name, description, optional positional index, declared
type, default value, remainings flag, properties. -/
structure InputConfig where
  Name : String
  Description : String
  ArgumentIndex : Option Nat
  Type_ : String
  Default : Value
  Remainings : Bool
  Properties : Value

/-- Modelled from the spec: the struct `ParameterConfig` (a positional
declaration) is declared outside `task_def.go`; these are the fields the code
reads. -/
structure ParameterConfig where
  Name : String
  Description : String
  Type_ : String
  Default : Value
  Remainings : Bool
  Properties : Value

/-- Modelled from the spec: the struct `OptionConfig` (a named declaration) is
declared outside `task_def.go`; these are the fields the code reads. -/
structure OptionConfig where
  Name : String
  Description : String
  Type_ : String
  Default : Value
  Remainings : Bool
  Properties : Value

/-- The struct `TaskDef`. -/
structure TaskDef where
  Name : String
  Description : String
  Inputs : List (Option InputConfig)
  TaskDefs : List (Option TaskDef)
  Script : String
  Steps : List (Option Step)
  Autoenv : Bool
  Autodir : Bool
  Interactive : Bool

/-- The struct `TaskDefV1`. -/
structure TaskDefV1 where
  Name : String
  Description : String
  Inputs : List (Option InputConfig)
  Parameters : List (Option ParameterConfig)
  Options : List (Option OptionConfig)
  TaskDefs : List (Option TaskDef)
  Runner : Option StrMap
  Script : String
  StepDefs : List (Option RawMap)
  Autoenv : Bool
  Autodir : Bool
  Interactive : Bool

/-- The struct `TaskDefV2`; `TaskDefs` is a map from names to bodies and
`Script` a dynamic value. -/
structure TaskDefV2 where
  Description : String
  Inputs : List (Option InputConfig)
  Parameters : List (Option ParameterConfig)
  Options : List (Option OptionConfig)
  TaskDefs : List (String × Option TaskDef)
  Runner : Option StrMap
  Script : Value
  StepDefs : List (Option RawMap)
  Autoenv : Bool
  Autodir : Bool
  Interactive : Bool

/-- The zero value `&TaskDef{}`. -/
def TaskDef.zero : TaskDef :=
  { Name := "", Description := "", Inputs := [], TaskDefs := [], Script := "", Steps := [],
    Autoenv := false, Autodir := false, Interactive := false }

/-- The composite literal `TaskDefV1{...}` of `UnmarshalYAML`. -/
def TaskDefV1.initial : TaskDefV1 :=
  { Name := "", Description := "", Inputs := [], Parameters := [], Options := [],
    TaskDefs := [], Runner := none, Script := "", StepDefs := [],
    Autoenv := false, Autodir := false, Interactive := false }

/-- The composite literal `&TaskDefV2{...}` of `UnmarshalYAML`. -/
def TaskDefV2.initial : TaskDefV2 :=
  { Description := "", Inputs := [], Parameters := [], Options := [],
    TaskDefs := [], Runner := none, Script := Value.null, StepDefs := [],
    Autoenv := false, Autodir := false, Interactive := false }

/-- The callback `unmarshal func(interface{}) error` that `UnmarshalYAML`
receives, by the three targets it is applied to: the dynamic map `v3` (only
logged, so only the error matters), the struct `v1`, and the pointer `v2`
(which the callback may leave `nil`). -/
structure Unmarshal where
  v3 : Option Error
  v1 : TaskDefV1 → TaskDefV1 × Option Error
  v2 : Option TaskDefV2 → Option TaskDefV2 × Option Error

/-- The composite literal `&InputConfig{...}` built for the parameter `p` at
index `i`: the fields of `p` and an `ArgumentIndex` pointing to `i`. -/
def parameterInput (i : Nat) (p : ParameterConfig) : InputConfig :=
  { Name := p.Name, Description := p.Description, ArgumentIndex := some i,
    Type_ := p.Type_, Default := p.Default, Remainings := p.Remainings,
    Properties := p.Properties }

/-- The composite literal `&InputConfig{...}` built for the option `o`: the
fields of `o`, the `ArgumentIndex` left `nil`. -/
def optionInput (o : OptionConfig) : InputConfig :=
  { Name := o.Name, Description := o.Description, ArgumentIndex := none,
    Type_ := o.Type_, Default := o.Default, Remainings := o.Remainings,
    Properties := o.Properties }

/-- The `for i, p := range Parameters` loop, started at index `i`: each
parameter is appended as an input carrying its index; a `nil` entry panics at
`p.Name`. -/
def appendParameters :
    List (Option ParameterConfig) → Nat → List (Option InputConfig) →
      Outcome (List (Option InputConfig))
  | [], _, inputs => .ret inputs
  | none :: _, _, _ => .panic nilDereference
  | some p :: rest, i, inputs =>
    appendParameters rest (i + 1) (inputs ++ [some (parameterInput i p)])

/-- The `for _, o := range Options` loop: each option is appended as an input
without index; a `nil` entry panics at `o.Name`. -/
def appendOptions :
    List (Option OptionConfig) → List (Option InputConfig) →
      Outcome (List (Option InputConfig))
  | [], inputs => .ret inputs
  | none :: _, _ => .panic nilDereference
  | some o :: rest, inputs => appendOptions rest (inputs ++ [some (optionInput o)])

/-- The `if len(Inputs) > 0 ... else ...` statement shared by both branches of
`UnmarshalYAML`; `current` is the value of `t.Inputs` when it is reached. -/
def resolveInputs (current : List (Option InputConfig)) (inputs : List (Option InputConfig))
    (parameters : List (Option ParameterConfig)) (options : List (Option OptionConfig)) :
    Outcome (List (Option InputConfig)) :=
  if inputs.length > 0 then
    .ret inputs
  else
    (appendParameters parameters 0 current).bind (appendOptions options)

/-- The method `CopyTo`: every field but `Name` is copied onto `other`. -/
def TaskDef.CopyTo (t : TaskDef) (other : TaskDef) : TaskDef :=
  { other with
    Description := t.Description, Inputs := t.Inputs, TaskDefs := t.TaskDefs,
    Steps := t.Steps, Script := t.Script, Autoenv := t.Autoenv, Autodir := t.Autodir,
    Interactive := t.Interactive }

/-- `TransformV2FlowConfigMapToArray`: one fresh TaskDef per map entry, named
by the key; a `nil` body panics inside `CopyTo`. -/
def TransformV2FlowConfigMapToArray :
    List (String × Option TaskDef) → Outcome (List (Option TaskDef))
  | [] => .ret []
  | (_, none) :: _ => .panic nilDereference
  | (name, some t2) :: rest =>
    (TransformV2FlowConfigMapToArray rest).bind fun result =>
      .ret (some (t2.CopyTo { TaskDef.zero with Name := name }) :: result)

/-- The `switch s := v2.Script.(type)` statement: a string is taken as it is, a
sequence is asserted element by element to be strings (a failed assertion
panics) and joined with newlines, anything else leaves the script empty. -/
def assertStrings : List Value → Outcome (List String)
  | [] => .ret []
  | Value.str s :: rest => (assertStrings rest).bind fun ss => .ret (s :: ss)
  | _ :: _ => .panic "interface conversion: interface is not string"

/-- The resolved script of the version-2 branch. -/
def resolveScript : Value → Outcome String
  | Value.str s => .ret s
  | Value.seq s => (assertStrings s).bind fun ss => .ret (String.intercalate "\n" ss)
  | _ => .ret ""

/-! ## The schema resolver -/

/-- The version-1 branch of `UnmarshalYAML` (the body of the first
`if err == nil`), on the receiver `t` and the decoded `v1`. The result is the
receiver as the call leaves it and the returned error. -/
def unmarshalV1 (depth : Nat) (stepLoaders : List StepLoader) (t : TaskDef) (v1 : TaskDefV1) :
    Outcome (TaskDef × Option Error) :=
  let t := { t with Name := v1.Name, Description := v1.Description, Inputs := v1.Inputs }
  (resolveInputs t.Inputs v1.Inputs v1.Parameters v1.Options).bind fun inputs =>
    let t :=
      { t with
        Inputs := inputs, TaskDefs := v1.TaskDefs, Script := v1.Script,
        Autoenv := v1.Autoenv, Autodir := v1.Autodir, Interactive := v1.Interactive }
    (readStepsFromStepDefs depth stepLoaders v1.Script v1.Runner v1.StepDefs).bind fun r =>
      match r with
      | (_, some err) => .ret (t, errors.Wrapf (some err) "Error while reading v1 config" [])
      | (steps, none) => .ret ({ t with Steps := steps }, errors.WithStack none)

/-- The error of the version-2 attempt after the acceptance test: a document
with no `tasks`, an empty resolved script and no `steps` is not version 2. -/
def v2Error (v2 : TaskDefV2) (script : String) (err : Option Error) : Option Error :=
  if v2.TaskDefs.length = 0 ∧ script = "" ∧ v2.StepDefs.length = 0 then
    some (fmt.Errorf "Not v2 format: `tasks`, `script`, `steps` are missing." [])
  else err

/-- The version-2 branch of `UnmarshalYAML` (the body of `if err != nil`), on
the receiver `t` and the callback. -/
def unmarshalV2 (depth : Nat) (stepLoaders : List StepLoader) (t : TaskDef)
    (unmarshal : Unmarshal) : Outcome (TaskDef × Option Error) :=
  match unmarshal.v2 (some TaskDefV2.initial) with
  | (none, _) => .panic nilDereference
  | (some v2, err) =>
    (resolveScript v2.Script).bind fun script =>
      match v2Error v2 script err with
      | some e => .ret (t, errors.WithStack (some e))
      | none =>
        let t := { t with Description := v2.Description }
        (resolveInputs t.Inputs v2.Inputs v2.Parameters v2.Options).bind fun inputs =>
          let t := { t with Inputs := inputs }
          (TransformV2FlowConfigMapToArray v2.TaskDefs).bind fun taskDefs =>
            let t := { t with TaskDefs := taskDefs }
            (readStepsFromStepDefs depth stepLoaders script v2.Runner v2.StepDefs).bind fun r =>
              match r with
              | (_, some err) =>
                .ret (t, errors.Wrapf (some err) "Error while reading v2 config" [])
              | (steps, none) =>
                .ret ({ t with
                        Steps := steps, Script := script, Autoenv := v2.Autoenv,
                        Autodir := v2.Autodir, Interactive := v2.Interactive },
                      errors.WithStack none)

/-- The error of the version-1 attempt after the acceptance test: a document
with an empty `name` and no `tasks` is not version 1. -/
def v1Error (v1 : TaskDefV1) (err : Option Error) : Option Error :=
  if v1.Name = "" ∧ v1.TaskDefs.length = 0 then
    some (fmt.Errorf "Not v1 format: Both `name` and `tasks` are empty" [])
  else err

/-- The method `(t *TaskDef) UnmarshalYAML(unmarshal)` on the registry
`stepLoaders`: the receiver as the call leaves it and the returned error. -/
def TaskDef.UnmarshalYAML (depth : Nat) (stepLoaders : List StepLoader) (t : TaskDef)
    (unmarshal : Unmarshal) : Outcome (TaskDef × Option Error) :=
  match unmarshal.v3 with
  | some err => .ret (t, some err)
  | none =>
    let decoded := unmarshal.v1 TaskDefV1.initial
    match v1Error decoded.1 decoded.2 with
    | none => unmarshalV1 depth stepLoaders t decoded.1
    | some _ => unmarshalV2 depth stepLoaders t unmarshal

/-! ## The dynamic-map path -/

/-- The call `mapstructure.Decode(s2i, t)` of `github.com/mitchellh/mapstructure`
as the code uses it: from the string-keyed map and the TaskDef it is handed,
the TaskDef it leaves behind, or an error. The library is a parameter of the
embedding. -/
abbrev Decoder := StrMap → TaskDef → Except Error TaskDef

/-- The leaf test `leaf := s2i["script"] != nil` of
`TransformV3TaskDefMapToArray`. -/
def leaf (s2i : StrMap) : Bool :=
  !(s2i.get "script").isNil

/-- The panic value of an entry whose value is not a
`map[interface{}]interface{}` (the text before the printed value). -/
def notAMap : String :=
  "Not a map[interface\x7b\x7d]interface\x7b\x7d"

/-- The body of the `for k, v := range v3` loop of
`TransformV3TaskDefMapToArray` for one entry: the TaskDef appended to the
result. `recurse` is the recursive call of the function on the body. -/
def transformV3Entry (decode : Decoder) (recurse : StrMap → Outcome (List (Option TaskDef)))
    (k : String) (v : Value) : Outcome TaskDef :=
  let t : TaskDef := { TaskDef.zero with Name := k }
  match v with
  | Value.imap i2i =>
    match CastKeysToStrings i2i with
    | .error err => .panic (Error.wrap err "Unexpected structure").text
    | .ok s2i =>
      if leaf s2i then
        match decode s2i t with
        | .error err => .panic (Error.withStack err).text
        | .ok t' => .ret t'
      else
        (recurse s2i).bind fun taskDefs => .ret { t with TaskDefs := taskDefs }
  | _ => .panic notAMap

/-- The `for k, v := range v3` loop of `TransformV3TaskDefMapToArray`. -/
def transformV3Loop (decode : Decoder) (recurse : StrMap → Outcome (List (Option TaskDef))) :
    StrMap → Outcome (List (Option TaskDef))
  | [] => .ret []
  | (k, v) :: rest =>
    (transformV3Entry decode recurse k v).bind fun t =>
      (transformV3Loop decode recurse rest).bind fun result => .ret (some t :: result)

/-- `TransformV3TaskDefMapToArray(v3)`. `depth` bounds how many levels of
nested bodies the recursion descends; below it the call counts as not
returning. -/
def TransformV3TaskDefMapToArray (decode : Decoder) :
    Nat → StrMap → Outcome (List (Option TaskDef))
  | 0, v3 => transformV3Loop decode (fun _ => .diverge) v3
  | depth + 1, v3 => transformV3Loop decode (TransformV3TaskDefMapToArray decode depth) v3

/-! ## Concrete loaders and documents used as test inputs -/

/-- A loader that fails on every StepDef with the given message. -/
def failingLoader (msg : String) : StepLoader :=
  ⟨fun _ _ => .ret (none, some (Error.errorf msg))⟩

/-- A loader that succeeds on every StepDef with the step of the given
identifier. -/
def succeedingLoader (ident : String) : StepLoader :=
  ⟨fun _ _ => .ret (some ⟨ident⟩, none)⟩

/-- A loader that panics as soon as it is invoked. -/
def panickingLoader : StepLoader :=
  ⟨fun _ _ => .panic "loader invoked"⟩

/-- A loader that accepts every StepDef whose `name` is not the string `bad`
and names the step after the StepDef. -/
def namedLoader : StepLoader :=
  ⟨fun config _ =>
    match config.raw.get "name" with
    | Value.str name =>
      if name = "bad" then .ret (none, some (Error.errorf "bad step"))
      else .ret (some ⟨name⟩, none)
    | _ => .ret (none, some (Error.errorf "unnamed step"))⟩

/-- An input declaration with the given name. -/
def inputNamed (name : String) : InputConfig :=
  { Name := name, Description := "", ArgumentIndex := none, Type_ := "string",
    Default := Value.null, Remainings := false, Properties := Value.null }

/-- A parameter declaration with the given name. -/
def parameterNamed (name : String) : ParameterConfig :=
  { Name := name, Description := "", Type_ := "string", Default := Value.null,
    Remainings := false, Properties := Value.null }

/-- An option declaration with the given name. -/
def optionNamed (name : String) : OptionConfig :=
  { Name := name, Description := "", Type_ := "string", Default := Value.null,
    Remainings := false, Properties := Value.null }

/-- A version-1 document `name: build` with a unified `inputs` list next to
`parameters` (one of them `null`) and `options`. -/
def docV1Unified : Unmarshal :=
  { v3 := none
    v1 := fun v1 =>
      ({ v1 with
         Name := "build", Inputs := [some (inputNamed "target")],
         Parameters := [none, some (parameterNamed "a")],
         Options := [some (optionNamed "x")] }, none)
    v2 := fun v2 => (v2, none) }

/-- A version-2 document (no `name`, no `tasks`) with `script: make`, a unified
`inputs` list and a `parameters` list holding a `null`. -/
def docV2Unified : Unmarshal :=
  { v3 := none
    v1 := fun v1 =>
      ({ v1 with
         Inputs := [some (inputNamed "target")], Parameters := [none], Script := "make" }, none)
    v2 := fun _ =>
      (some { TaskDefV2.initial with
              Inputs := [some (inputNamed "target")], Parameters := [none],
              Script := Value.str "make" }, none) }

/-- A version-1 document `name: build` with parameters `[a, b, c]` and options
`[x, y]`. -/
def docV1Legacy : Unmarshal :=
  { v3 := none
    v1 := fun v1 =>
      ({ v1 with
         Name := "build",
         Parameters := [parameterNamed "a", parameterNamed "b", parameterNamed "c"].map some,
         Options := [optionNamed "x", optionNamed "y"].map some }, none)
    v2 := fun v2 => (v2, none) }

/-- A document with no field at all: both decodes leave the initial values. -/
def docEmpty : Unmarshal :=
  { v3 := none
    v1 := fun v1 => (v1, none)
    v2 := fun v2 => (v2, none) }

/-- A document `name: build` with both `script: make` and a one-entry `steps`
list; read as version 2 it would be accepted (its script is not empty). -/
def docV1ScriptAndSteps : Unmarshal :=
  { v3 := none
    v1 := fun v1 =>
      ({ v1 with
         Name := "build", Script := "make",
         StepDefs := [some [(Value.str "name", Value.str "a")]] }, none)
    v2 := fun _ =>
      (some { TaskDefV2.initial with
              Script := Value.str "make",
              StepDefs := [some [(Value.str "name", Value.str "a")]] }, none) }

/-- A version-2 document (no `name`, no `tasks`) with `script: make` and a
step named `bad`, which `namedLoader` rejects. -/
def docV2BadStep : Unmarshal :=
  { v3 := none
    v1 := fun v1 => ({ v1 with StepDefs := [some [(Value.str "name", Value.str "bad")]] }, none)
    v2 := fun _ =>
      (some { TaskDefV2.initial with
              StepDefs := [some [(Value.str "name", Value.str "bad")]] }, none) }

/-- The version-2 document `script: ["echo start", "echo done"]` (no `name`,
no `tasks`). -/
def docV2ScriptLines : Unmarshal :=
  { v3 := none
    v1 := fun v1 => (v1, some (Error.errorf "cannot unmarshal !!seq into string"))
    v2 := fun _ =>
      (some { TaskDefV2.initial with
              Script := Value.seq [Value.str "echo start", Value.str "echo done"] }, none) }

/-- A task body with the given (own) name and script. -/
def bodyWithScript (name script : String) : TaskDef :=
  { TaskDef.zero with Name := name, Script := script, Steps := [some ⟨script⟩] }

/-- A decoder that reads the `script` field only: a string is stored as
`Script`, a missing or `nil` value leaves the TaskDef as it is, any other value
is an error. -/
def scriptDecoder : Decoder := fun input t =>
  match input.get "script" with
  | Value.str script => .ok { t with Script := script }
  | Value.null => .ok t
  | _ => .error (Error.errorf "'Script' expected type 'string'")

/-- The version-1 document `name: build` with no other field. -/
def docV1NameOnly : Unmarshal :=
  { v3 := none
    v1 := fun v1 => ({ v1 with Name := "build" }, none)
    v2 := fun v2 => (v2, none) }

/-- The version-1 document `name: build` with a `tasks` array of two children
and `script: make`. -/
def docV1Tasks : Unmarshal :=
  { v3 := none
    v1 := fun v1 =>
      ({ v1 with
         Name := "build", Description := "builds", Script := "make", Autoenv := true,
         TaskDefs := [some (bodyWithScript "compile" "go build"),
                      some (bodyWithScript "lint" "go vet")] }, none)
    v2 := fun v2 => (v2, some (Error.errorf "cannot unmarshal !!seq into map")) }

/-- The version-1 document `name: build`, `script: make`, `parameters: [a]`. -/
def docV1Params : Unmarshal :=
  { v3 := none
    v1 := fun v1 =>
      ({ v1 with
         Name := "build", Script := "make", Parameters := [some (parameterNamed "a")] }, none)
    v2 := fun _ =>
      (some { TaskDefV2.initial with
              Script := Value.str "make", Parameters := [some (parameterNamed "a")] }, none) }

/-- The version-2 document `script: make`, `parameters: [a]` (no `name`, no
`tasks`). -/
def docV2Params : Unmarshal :=
  { v3 := none
    v1 := fun v1 =>
      ({ v1 with Script := "make", Parameters := [some (parameterNamed "a")] }, none)
    v2 := fun _ =>
      (some { TaskDefV2.initial with
              Script := Value.str "make", Parameters := [some (parameterNamed "a")] }, none) }

/-- A receiver that already holds one input. -/
def receiverWithInput : TaskDef :=
  { TaskDef.zero with Inputs := [some (inputNamed "old")] }

/-! ## Helper lemmas -/

theorem foldl_Register (loaders acc : List StepLoader) :
    loaders.foldl Register acc = acc ++ loaders := by
  induction loaders generalizing acc with
  | nil => simp
  | cons l rest ih => simp [List.foldl, ih, Register]

theorem registered_eq (loaders : List StepLoader) : registered loaders = loaders := by
  simp [registered, foldl_Register, init]

theorem loadStepLoop_skip (context : LoadingContext) (config : StepDef)
    (pre rest : List StepLoader) (lastError : Option Error)
    (hpre : ∀ l ∈ pre, ∃ s e, l.LoadStep config context = .ret (s, some e)) :
    ∃ lastError', loadStepLoop context config (pre ++ rest) lastError
      = loadStepLoop context config rest lastError' := by
  induction pre generalizing lastError with
  | nil => exact ⟨lastError, rfl⟩
  | cons l pre ih =>
    obtain ⟨s, e, hl⟩ := hpre l (List.mem_cons_self l pre)
    obtain ⟨last', h⟩ := ih (some e) (fun l' hl' => hpre l' (List.mem_cons_of_mem l hl'))
    refine ⟨last', ?_⟩
    simp only [List.cons_append, loadStepLoop, hl]
    exact h

theorem sprintf_all_loader :
    fmt.Sprintf "all loader failed to load step" [] = "all loader failed to load step" := by
  decide

/-! ## Input normalisation inside `UnmarshalYAML` -/

theorem UnmarshalYAML_v1 (depth : Nat) (stepLoaders : List StepLoader) (t : TaskDef)
    (unmarshal : Unmarshal) (v1 : TaskDefV1) (e : Option Error)
    (hv3 : unmarshal.v3 = none) (hv1 : unmarshal.v1 TaskDefV1.initial = (v1, e))
    (haccept : v1Error v1 e = none) :
    t.UnmarshalYAML depth stepLoaders unmarshal = unmarshalV1 depth stepLoaders t v1 := by
  simp [TaskDef.UnmarshalYAML, hv3, hv1, haccept]

theorem UnmarshalYAML_v2 (depth : Nat) (stepLoaders : List StepLoader) (t : TaskDef)
    (unmarshal : Unmarshal) (v1 : TaskDefV1) (e : Option Error) (e' : Error)
    (hv3 : unmarshal.v3 = none) (hv1 : unmarshal.v1 TaskDefV1.initial = (v1, e))
    (hreject : v1Error v1 e = some e') :
    t.UnmarshalYAML depth stepLoaders unmarshal = unmarshalV2 depth stepLoaders t unmarshal := by
  simp [TaskDef.UnmarshalYAML, hv3, hv1, hreject]

theorem unmarshalV1_returns (depth : Nat) (stepLoaders : List StepLoader) (t : TaskDef)
    (v1 : TaskDefV1) (inputs : List (Option InputConfig))
    (r : List (Option Step) × Option Error)
    (hinputs : resolveInputs v1.Inputs v1.Inputs v1.Parameters v1.Options = .ret inputs)
    (hsteps : readStepsFromStepDefs depth stepLoaders v1.Script v1.Runner v1.StepDefs = .ret r) :
    ∃ t' err, unmarshalV1 depth stepLoaders t v1 = .ret (t', err) ∧ t'.Inputs = inputs := by
  obtain ⟨steps, e⟩ := r
  cases e with
  | none => exact ⟨_, _, by simp only [unmarshalV1, hinputs, hsteps, Outcome.bind]; rfl, rfl⟩
  | some e => exact ⟨_, _, by simp only [unmarshalV1, hinputs, hsteps, Outcome.bind]; rfl, rfl⟩

theorem unmarshalV2_returns (depth : Nat) (stepLoaders : List StepLoader) (t : TaskDef)
    (unmarshal : Unmarshal) (v2 : TaskDefV2) (e2 : Option Error) (script : String)
    (inputs : List (Option InputConfig)) (taskDefs : List (Option TaskDef))
    (r : List (Option Step) × Option Error)
    (hv2 : unmarshal.v2 (some TaskDefV2.initial) = (some v2, e2))
    (hscript : resolveScript v2.Script = .ret script)
    (haccept : v2Error v2 script e2 = none)
    (hinputs : resolveInputs t.Inputs v2.Inputs v2.Parameters v2.Options = .ret inputs)
    (htasks : TransformV2FlowConfigMapToArray v2.TaskDefs = .ret taskDefs)
    (hsteps : readStepsFromStepDefs depth stepLoaders script v2.Runner v2.StepDefs = .ret r) :
    ∃ t' err, unmarshalV2 depth stepLoaders t unmarshal = .ret (t', err) ∧ t'.Inputs = inputs := by
  obtain ⟨steps, e⟩ := r
  cases e with
  | none =>
    exact ⟨_, _, by
      simp only [unmarshalV2, hv2, hscript, haccept, hinputs, htasks, hsteps, Outcome.bind]
      rfl, rfl⟩
  | some e =>
    exact ⟨_, _, by
      simp only [unmarshalV2, hv2, hscript, haccept, hinputs, htasks, hsteps, Outcome.bind]
      rfl, rfl⟩

theorem resolveInputs_unified (current inputs : List (Option InputConfig))
    (parameters : List (Option ParameterConfig)) (options : List (Option OptionConfig))
    (hne : inputs ≠ []) :
    resolveInputs current inputs parameters options = .ret inputs := by
  have hlen : inputs.length > 0 := List.length_pos.mpr hne
  simp [resolveInputs, hlen]

theorem appendParameters_some (ps : List ParameterConfig) (i : Nat)
    (acc : List (Option InputConfig)) :
    appendParameters (ps.map some) i acc
      = .ret (acc ++ (ps.enumFrom i).map (fun ip => some (parameterInput ip.1 ip.2))) := by
  induction ps generalizing i acc with
  | nil => simp [appendParameters]
  | cons p ps ih =>
    simp only [List.map_cons, appendParameters, ih, List.enumFrom_cons, List.append_assoc,
      List.singleton_append]

theorem appendOptions_some (os : List OptionConfig) (acc : List (Option InputConfig)) :
    appendOptions (os.map some) acc = .ret (acc ++ os.map (fun o => some (optionInput o))) := by
  induction os generalizing acc with
  | nil => simp [appendOptions]
  | cons o os ih =>
    simp only [List.map_cons, appendOptions, ih, List.append_assoc, List.singleton_append]

theorem resolveInputs_legacy (current : List (Option InputConfig)) (ps : List ParameterConfig)
    (os : List OptionConfig) :
    resolveInputs current [] (ps.map some) (os.map some)
      = .ret (current ++ (ps.enumFrom 0).map (fun ip => some (parameterInput ip.1 ip.2))
          ++ os.map (fun o => some (optionInput o))) := by
  simp [resolveInputs, appendParameters_some, appendOptions_some, Outcome.bind]

theorem legacy_inputs_elements (ps : List ParameterConfig) (os : List OptionConfig) :
    let inputs : List (Option InputConfig) :=
      (ps.enumFrom 0).map (fun ip => some (parameterInput ip.1 ip.2))
        ++ os.map (fun o => some (optionInput o))
    inputs.length = ps.length + os.length ∧
    (∀ i p, ps[i]? = some p → inputs[i]? = some (some (parameterInput i p))) ∧
    (∀ j o, os[j]? = some o → inputs[ps.length + j]? = some (some (optionInput o))) := by
  intro inputs
  refine ⟨by simp [inputs], ?_, ?_⟩
  · intro i p hp
    have hi : i < ps.length := (List.getElem?_eq_some.mp hp).1
    simp only [inputs]
    rw [List.getElem?_append_left (by simpa using hi), List.getElem?_map,
      List.getElem?_enumFrom, hp]
    simp
  · intro j o ho
    simp only [inputs]
    rw [List.getElem?_append_right (by simp)]
    simp [ho]

/-- C1: when the committed branch (version 1 or version 2) decoded a non-empty
unified list `inputs` and step synthesis returns, `UnmarshalYAML` returns and
leaves `Inputs` equal to `inputs`, whatever `parameters` and `options` hold
(`nil` entries included) and whatever the receiver held before. -/
theorem UnmarshalYAML_unified_inputs (depth : Nat) (stepLoaders : List StepLoader)
    (t : TaskDef) (unmarshal : Unmarshal) (inputs : List (Option InputConfig))
    (hv3 : unmarshal.v3 = none) (hne : inputs ≠ [])
    (hbranch :
      (∃ v1 e r, unmarshal.v1 TaskDefV1.initial = (v1, e) ∧ v1Error v1 e = none ∧
        v1.Inputs = inputs ∧
        readStepsFromStepDefs depth stepLoaders v1.Script v1.Runner v1.StepDefs = .ret r) ∨
      (∃ v1 e1 e1' v2 e2 script taskDefs r,
        unmarshal.v1 TaskDefV1.initial = (v1, e1) ∧ v1Error v1 e1 = some e1' ∧
        unmarshal.v2 (some TaskDefV2.initial) = (some v2, e2) ∧
        resolveScript v2.Script = .ret script ∧ v2Error v2 script e2 = none ∧
        v2.Inputs = inputs ∧
        TransformV2FlowConfigMapToArray v2.TaskDefs = .ret taskDefs ∧
        readStepsFromStepDefs depth stepLoaders script v2.Runner v2.StepDefs = .ret r)) :
    ∃ t' err, t.UnmarshalYAML depth stepLoaders unmarshal = .ret (t', err) ∧
      t'.Inputs = inputs := by
  rcases hbranch with ⟨v1, e, r, hv1, hacc, hin, hsteps⟩ |
    ⟨v1, e1, e1', v2, e2, script, taskDefs, r, hv1, hrej, hv2, hscript, hacc, hin, htasks, hsteps⟩
  · rw [UnmarshalYAML_v1 depth stepLoaders t unmarshal v1 e hv3 hv1 hacc]
    apply unmarshalV1_returns depth stepLoaders t v1 inputs r _ hsteps
    rw [hin]
    exact resolveInputs_unified inputs inputs _ _ hne
  · rw [UnmarshalYAML_v2 depth stepLoaders t unmarshal v1 e1 e1' hv3 hv1 hrej]
    apply unmarshalV2_returns depth stepLoaders t unmarshal v2 e2 script inputs taskDefs r
      hv2 hscript hacc _ htasks hsteps
    rw [hin]
    exact resolveInputs_unified _ inputs _ _ hne

theorem UnmarshalYAML_unified_inputs_witness :
    (∃ t' err, TaskDef.zero.UnmarshalYAML 0 init docV1Unified = .ret (t', err) ∧
      t'.Inputs = [some (inputNamed "target")]) ∧
    (∃ t' err, TaskDef.zero.UnmarshalYAML 0 (registered [succeedingLoader "S"]) docV2Unified
        = .ret (t', err) ∧
      t'.Inputs = [some (inputNamed "target")]) :=
  ⟨UnmarshalYAML_unified_inputs 0 init TaskDef.zero docV1Unified [some (inputNamed "target")]
      rfl (by simp)
      (Or.inl ⟨_, _, ([], none), rfl, by decide, rfl, rfl⟩),
    UnmarshalYAML_unified_inputs 0 (registered [succeedingLoader "S"]) TaskDef.zero docV2Unified
      [some (inputNamed "target")] rfl (by simp)
      (Or.inr ⟨_, _, Error.errorf "Not v1 format: Both `name` and `tasks` are empty", _, _,
        "make", [], ([some ⟨"S"⟩], none), rfl, by decide, rfl, rfl, by decide, rfl, rfl, rfl⟩)⟩

/-- C2: decoding into a zero-valued TaskDef a document whose committed branch
(version 1 or version 2) has an empty unified `inputs` list, parameters `ps` and
options `os`: when step synthesis returns, `UnmarshalYAML` returns and `Inputs`
has length `len(ps) + len(os)`; element `i` carries the fields of `ps[i]` and
`ArgumentIndex = i`; element `len(ps) + j` carries the fields of `os[j]` and no
`ArgumentIndex`. -/
theorem UnmarshalYAML_legacy_inputs (depth : Nat) (stepLoaders : List StepLoader)
    (unmarshal : Unmarshal) (ps : List ParameterConfig) (os : List OptionConfig)
    (hv3 : unmarshal.v3 = none)
    (hbranch :
      (∃ v1 e r, unmarshal.v1 TaskDefV1.initial = (v1, e) ∧ v1Error v1 e = none ∧
        v1.Inputs = [] ∧ v1.Parameters = ps.map some ∧ v1.Options = os.map some ∧
        readStepsFromStepDefs depth stepLoaders v1.Script v1.Runner v1.StepDefs = .ret r) ∨
      (∃ v1 e1 e1' v2 e2 script taskDefs r,
        unmarshal.v1 TaskDefV1.initial = (v1, e1) ∧ v1Error v1 e1 = some e1' ∧
        unmarshal.v2 (some TaskDefV2.initial) = (some v2, e2) ∧
        resolveScript v2.Script = .ret script ∧ v2Error v2 script e2 = none ∧
        v2.Inputs = [] ∧ v2.Parameters = ps.map some ∧ v2.Options = os.map some ∧
        TransformV2FlowConfigMapToArray v2.TaskDefs = .ret taskDefs ∧
        readStepsFromStepDefs depth stepLoaders script v2.Runner v2.StepDefs = .ret r)) :
    ∃ t' err, TaskDef.zero.UnmarshalYAML depth stepLoaders unmarshal = .ret (t', err) ∧
      t'.Inputs.length = ps.length + os.length ∧
      (∀ i p, ps[i]? = some p →
        t'.Inputs[i]? = some (some
          ({ Name := p.Name, Description := p.Description, ArgumentIndex := some i,
             Type_ := p.Type_, Default := p.Default, Remainings := p.Remainings,
             Properties := p.Properties } : InputConfig))) ∧
      (∀ j o, os[j]? = some o →
        t'.Inputs[ps.length + j]? = some (some
          ({ Name := o.Name, Description := o.Description, ArgumentIndex := none,
             Type_ := o.Type_, Default := o.Default, Remainings := o.Remainings,
             Properties := o.Properties } : InputConfig))) := by
  have hres : ∃ t' err, TaskDef.zero.UnmarshalYAML depth stepLoaders unmarshal = .ret (t', err) ∧
      t'.Inputs = (ps.enumFrom 0).map (fun ip => some (parameterInput ip.1 ip.2))
        ++ os.map (fun o => some (optionInput o)) := by
    rcases hbranch with ⟨v1, e, r, hv1, hacc, hin, hps, hos, hsteps⟩ |
      ⟨v1, e1, e1', v2, e2, script, taskDefs, r, hv1, hrej, hv2, hscript, hacc, hin, hps, hos,
        htasks, hsteps⟩
    · rw [UnmarshalYAML_v1 depth stepLoaders _ unmarshal v1 e hv3 hv1 hacc]
      apply unmarshalV1_returns depth stepLoaders _ v1 _ r _ hsteps
      rw [hin, hps, hos, resolveInputs_legacy]
      simp
    · rw [UnmarshalYAML_v2 depth stepLoaders _ unmarshal v1 e1 e1' hv3 hv1 hrej]
      apply unmarshalV2_returns depth stepLoaders _ unmarshal v2 e2 script _ taskDefs r
        hv2 hscript hacc _ htasks hsteps
      rw [hin, hps, hos, resolveInputs_legacy]
      simp [TaskDef.zero]
  obtain ⟨t', err, hcall, hinputs⟩ := hres
  refine ⟨t', err, hcall, ?_⟩
  rw [hinputs]
  exact legacy_inputs_elements ps os

theorem UnmarshalYAML_legacy_inputs_witness :
    ∃ t' err, TaskDef.zero.UnmarshalYAML 0 init docV1Legacy = .ret (t', err) ∧
      t'.Inputs.length = 5 ∧
      t'.Inputs[0]? = some (some (parameterInput 0 (parameterNamed "a"))) ∧
      t'.Inputs[1]? = some (some (parameterInput 1 (parameterNamed "b"))) ∧
      t'.Inputs[2]? = some (some (parameterInput 2 (parameterNamed "c"))) ∧
      t'.Inputs[3]? = some (some (optionInput (optionNamed "x"))) ∧
      t'.Inputs[4]? = some (some (optionInput (optionNamed "y"))) := by
  obtain ⟨t', err, hcall, hlen, hp, ho⟩ :=
    UnmarshalYAML_legacy_inputs 0 init docV1Legacy
      [parameterNamed "a", parameterNamed "b", parameterNamed "c"]
      [optionNamed "x", optionNamed "y"] rfl
      (Or.inl ⟨_, _, ([], none), rfl, by decide, rfl, rfl, rfl, rfl⟩)
  exact ⟨t', err, hcall, hlen, hp 0 _ rfl, hp 1 _ rfl, hp 2 _ rfl, ho 0 _ rfl, ho 1 _ rfl⟩

/-! ## The loader registry: `Register` and `LoadStep` -/

/-- C3: when the loaders registered before `Lk` all fail on the StepDef and `Lk`
succeeds with step `s` (each asked in the loading context of the call), then
`LoadStep` returns `s` with a `nil` error, whatever loaders `post` were
registered after `Lk`; and in that context the loop gives the same result with
any other loaders `post'` in their place, so it invokes none of them. -/
theorem LoadStep_first_success (depth : Nat) (pre : List StepLoader) (Lk : StepLoader)
    (post : List StepLoader) (config : StepDef) (s : Option Step)
    (hpre : ∀ l ∈ pre, ∃ s' e, l.LoadStep config
      (stepLoadingContextImpl depth (registered (pre ++ Lk :: post))) = .ret (s', some e))
    (hk : Lk.LoadStep config
      (stepLoadingContextImpl depth (registered (pre ++ Lk :: post))) = .ret (s, none)) :
    LoadStep depth (registered (pre ++ Lk :: post)) config = .ret (s, none) ∧
    ∀ post', loadStepLoop (stepLoadingContextImpl depth (registered (pre ++ Lk :: post)))
      config (registered (pre ++ Lk :: post')) none = .ret (s, none) := by
  have hloop : ∀ post', loadStepLoop
      (stepLoadingContextImpl depth (registered (pre ++ Lk :: post)))
      config (pre ++ Lk :: post') none = .ret (s, none) := by
    intro post'
    obtain ⟨last', h⟩ := loadStepLoop_skip _ config pre (Lk :: post') none hpre
    rw [h]
    simp only [loadStepLoop, hk]
  constructor
  · have h := hloop post
    rw [registered_eq (pre ++ Lk :: post)] at h ⊢
    exact h
  · intro post'
    rw [registered_eq (pre ++ Lk :: post')]
    exact hloop post'

theorem LoadStep_first_success_witness :
    LoadStep 0 (registered [failingLoader "e0", succeedingLoader "L1", succeedingLoader "L2"])
        (NewStepDef [("name", Value.str "a")])
      = .ret (some ⟨"L1"⟩, none) :=
  (LoadStep_first_success 0 [failingLoader "e0"] (succeedingLoader "L1") [succeedingLoader "L2"]
    (NewStepDef [("name", Value.str "a")]) (some ⟨"L1"⟩)
    (by
      intro l hl
      rw [List.mem_singleton] at hl
      subst hl
      exact ⟨none, Error.errorf "e0", rfl⟩)
    rfl).1

/-- C4 (the failing input): on the empty registry no loader succeeds, and
`LoadStep` returns neither a step nor an error, for every StepDef. -/
theorem LoadStep_empty_registry (depth : Nat) (config : StepDef) :
    LoadStep depth init config = .ret (none, none) := by
  simp [LoadStep, init, loadStepLoop, errors.Wrapf]

/-- C5: on a non-empty registry whose loaders all fail on the StepDef, the last
registered one with error `en`, `LoadStep` returns no step and the error that
wraps exactly `en` with the annotation "all loader failed to load step". -/
theorem LoadStep_all_fail_wraps_last (depth : Nat) (pre : List StepLoader) (Ln : StepLoader)
    (config : StepDef) (sn : Option Step) (en : Error)
    (hpre : ∀ l ∈ pre, ∃ s' e, l.LoadStep config
      (stepLoadingContextImpl depth (registered (pre ++ [Ln]))) = .ret (s', some e))
    (hn : Ln.LoadStep config
      (stepLoadingContextImpl depth (registered (pre ++ [Ln]))) = .ret (sn, some en)) :
    LoadStep depth (registered (pre ++ [Ln])) config
      = .ret (none, some (Error.wrap en "all loader failed to load step")) := by
  rw [registered_eq] at hpre hn ⊢
  obtain ⟨last', h⟩ := loadStepLoop_skip _ config pre [Ln] none hpre
  rw [LoadStep, h]
  simp only [loadStepLoop, hn, errors.Wrapf, sprintf_all_loader]

theorem LoadStep_all_fail_wraps_last_witness :
    LoadStep 0 (registered [failingLoader "e1", failingLoader "e2"])
        (NewStepDef [("name", Value.str "a")])
      = .ret (none, some (Error.wrap (Error.errorf "e2") "all loader failed to load step")) :=
  LoadStep_all_fail_wraps_last 0 [failingLoader "e1"] (failingLoader "e2")
    (NewStepDef [("name", Value.str "a")]) none (Error.errorf "e2")
    (by
      intro l hl
      rw [List.mem_singleton] at hl
      subst hl
      exact ⟨none, Error.errorf "e1", rfl⟩)
    rfl

/-! ## Step synthesis: `readStepsFromStepDefs` -/

theorem RawMap.get_cons (kv : Value × Value) (m : RawMap) (key : String) :
    RawMap.get (kv :: m) key = if kv.1.eqStr key then kv.2 else RawMap.get m key := by
  unfold RawMap.get
  rw [List.find?_cons]
  cases h : kv.1.eqStr key <;> simp

theorem RawMap.get_map_set (m : RawMap) (key : String) (v : Value)
    (h : m.any (fun kv => kv.1.eqStr key) = true) :
    RawMap.get (m.map (fun kv => if kv.1.eqStr key then (kv.1, v) else kv)) key = v := by
  induction m with
  | nil => simp at h
  | cons kv m ih =>
    rw [List.map_cons, RawMap.get_cons]
    cases hk : kv.1.eqStr key with
    | true => simp [hk]
    | false =>
      simp only [hk, Bool.false_eq_true, if_false]
      apply ih
      simpa [List.any_cons, hk] using h

theorem RawMap.get_append_absent (m : RawMap) (key : String) (v : Value)
    (h : m.any (fun kv => kv.1.eqStr key) = false) :
    RawMap.get (m ++ [(Value.str key, v)]) key = v := by
  induction m with
  | nil => simp [RawMap.get, Value.eqStr]
  | cons kv m ih =>
    rw [List.cons_append, RawMap.get_cons]
    simp only [List.any_cons, Bool.or_eq_false_iff] at h
    simp only [h.1, Bool.false_eq_true, if_false]
    exact ih h.2

theorem RawMap.get_set_same (m : RawMap) (key : String) (v : Value) :
    RawMap.get (m.set key v) key = v := by
  unfold RawMap.set
  cases h : m.any (fun kv => kv.1.eqStr key) with
  | true => simp only [if_true]; exact RawMap.get_map_set m key v h
  | false => simp only [Bool.false_eq_true, if_false]; exact RawMap.get_append_absent m key v h

theorem Value.eqStr_ne {k : Value} {key key' : String} (hne : key' ≠ key)
    (h : k.eqStr key = true) : k.eqStr key' = false := by
  cases k with
  | str ks =>
    simp only [Value.eqStr, decide_eq_true_eq] at h
    simp only [Value.eqStr, decide_eq_false_iff_not]
    intro h'
    exact hne (h'.symm.trans h)
  | _ => rfl

theorem RawMap.get_map_other (m : RawMap) (key key' : String) (v : Value) (hne : key' ≠ key) :
    RawMap.get (m.map (fun kv => if kv.1.eqStr key then (kv.1, v) else kv)) key'
      = RawMap.get m key' := by
  induction m with
  | nil => rfl
  | cons kv m ih =>
    rw [List.map_cons, RawMap.get_cons, RawMap.get_cons, ih]
    cases hk : kv.1.eqStr key with
    | true => simp [Value.eqStr_ne hne hk]
    | false => simp

theorem RawMap.get_append_other (m : RawMap) (key key' : String) (v : Value) (hne : key' ≠ key) :
    RawMap.get (m ++ [(Value.str key, v)]) key' = RawMap.get m key' := by
  induction m with
  | nil => simp [RawMap.get, Value.eqStr, Ne.symm hne]
  | cons kv m ih => rw [List.cons_append, RawMap.get_cons, RawMap.get_cons, ih]

theorem RawMap.get_set_other (m : RawMap) (key key' : String) (v : Value) (hne : key' ≠ key) :
    RawMap.get (m.set key v) key' = RawMap.get m key' := by
  unfold RawMap.set
  split
  · exact RawMap.get_map_other m key key' v hne
  · exact RawMap.get_append_other m key key' v hne

theorem CastKeysToStrings_get (m : RawMap) (converted : StrMap)
    (h : CastKeysToStrings m = .ok converted) (key : String) :
    StrMap.get converted key = RawMap.get m key := by
  induction m generalizing converted with
  | nil =>
    simp only [CastKeysToStrings, Except.ok.injEq] at h
    subst h
    rfl
  | cons kv m ih =>
    obtain ⟨k, v⟩ := kv
    cases k with
    | str ks =>
      simp only [CastKeysToStrings] at h
      cases hc : CastKeysToStrings m with
      | error e => simp [hc] at h
      | ok conv =>
        simp only [hc, Except.ok.injEq] at h
        subst h
        rw [RawMap.get_cons, ← ih conv hc]
        unfold StrMap.get
        rw [List.find?_cons]
        by_cases hks : ks = key <;> simp [Value.eqStr, hks]
    | _ => simp [CastKeysToStrings] at h

theorem sprintf_step (n : Nat) : fmt.Sprintf "step-%d" [n] = "step-" ++ Nat.repr n := by
  simp [fmt.Sprintf, fmt.sprintfChars]
  rfl

theorem sprintf_both : fmt.Sprintf "both script and steps exist." []
    = "both script and steps exist." := by
  decide

theorem sprintf_error_reading : fmt.Sprintf "Error reading step[%d]" []
    = "Error reading step[%!d(MISSING)]" := by
  decide

/-- C6: with a non-empty script and a non-empty step list `readStepsFromStepDefs`
returns the "both script and steps exist." error and no steps, on every
registry: whatever the registered loaders would do (panic included), the
outcome is the same, so none is invoked. -/
theorem readSteps_script_and_steps (depth : Nat) (stepLoaders : List StepLoader)
    (script : String) (runner : Option StrMap) (stepDefs : List (Option RawMap))
    (hscript : script ≠ "") (hsteps : stepDefs ≠ []) :
    readStepsFromStepDefs depth stepLoaders script runner stepDefs
      = .ret ([], some (Error.errorf "both script and steps exist.")) := by
  have hlen : stepDefs.length > 0 := List.length_pos.mpr hsteps
  simp [readStepsFromStepDefs, hscript, hlen, fmt.Errorf, sprintf_both]

theorem readSteps_script_and_steps_witness :
    "make" ≠ "" ∧
    [some [(Value.str "name", Value.str "a")]] ≠ ([] : List (Option RawMap)) ∧
    readStepsFromStepDefs 0 (registered [panickingLoader]) "make" none
        [some [(Value.str "name", Value.str "a")]]
      = .ret ([], some (Error.errorf "both script and steps exist.")) :=
  ⟨by decide, by simp,
    readSteps_script_and_steps 0 (registered [panickingLoader]) "make" none
      [some [(Value.str "name", Value.str "a")]] (by decide) (by simp)⟩

theorem scriptStepRaw_eq (script : String) (runner : Option StrMap) :
    scriptStepRaw script runner
      = [("name", Value.str "script"), ("script", Value.str script),
          ("silent", Value.bool false)]
        ++ (match runner with
            | some r => [("runner", Value.smap r)]
            | none => []) := by
  cases runner with
  | none => rfl
  | some r => simp [scriptStepRaw, StrMap.set]

/-- C7: with a non-empty script and an empty step list, when the registry loads
the StepDef with the fields `name = "script"`, `script = s`, `silent = false`,
and `runner = r` exactly when a runner `r` is supplied, with step `st` and no
error, `readStepsFromStepDefs` returns the one-element list `[st]` and no
error. -/
theorem readSteps_script_only (depth : Nat) (stepLoaders : List StepLoader)
    (script : String) (runner : Option StrMap) (st : Option Step)
    (hscript : script ≠ "")
    (hload : LoadStep depth stepLoaders
      (NewStepDef
        ([("name", Value.str "script"), ("script", Value.str script),
            ("silent", Value.bool false)]
          ++ (match runner with
              | some r => [("runner", Value.smap r)]
              | none => []))) = .ret (st, none)) :
    readStepsFromStepDefs depth stepLoaders script runner [] = .ret ([st], none) := by
  rw [← scriptStepRaw_eq] at hload
  simp [readStepsFromStepDefs, hscript, hload]

theorem readSteps_script_only_witness :
    "go build" ≠ "" ∧
    LoadStep 0 (registered [namedLoader])
      (NewStepDef
        [("name", Value.str "script"), ("script", Value.str "go build"),
          ("silent", Value.bool false), ("runner", Value.smap [("image", Value.str "golang")])])
      = .ret (some ⟨"script"⟩, none) ∧
    readStepsFromStepDefs 0 (registered [namedLoader]) "go build"
        (some [("image", Value.str "golang")]) []
      = .ret ([some ⟨"script"⟩], none) :=
  ⟨by decide, by rfl,
    readSteps_script_only 0 (registered [namedLoader]) "go build"
      (some [("image", Value.str "golang")]) (some ⟨"script"⟩) (by decide) (by rfl)⟩

theorem CastKeysToStrings_ok (m : RawMap) (h : ∀ kv ∈ m, ∃ k, kv.1 = Value.str k) :
    ∃ converted, CastKeysToStrings m = .ok converted := by
  induction m with
  | nil => exact ⟨[], rfl⟩
  | cons kv m ih =>
    obtain ⟨k, hk⟩ := h kv (List.mem_cons_self kv m)
    obtain ⟨conv, hconv⟩ := ih (fun kv' hkv' => h kv' (List.mem_cons_of_mem kv hkv'))
    obtain ⟨k', v⟩ := kv
    simp only at hk
    subst hk
    exact ⟨(k, v) :: conv, by simp [CastKeysToStrings, hconv]⟩

theorem RawMap.set_strKeys (m : RawMap) (key : String) (v : Value)
    (h : ∀ kv ∈ m, ∃ k, kv.1 = Value.str k) :
    ∀ kv ∈ m.set key v, ∃ k, kv.1 = Value.str k := by
  intro kv hkv
  unfold RawMap.set at hkv
  split at hkv
  · rw [List.mem_map] at hkv
    obtain ⟨kv0, hmem, heq⟩ := hkv
    obtain ⟨k, hk⟩ := h kv0 hmem
    refine ⟨k, ?_⟩
    split at heq <;> (rw [← heq]; exact hk)
  · rw [List.mem_append] at hkv
    rcases hkv with hkv | hkv
    · exact h kv hkv
    · rw [List.mem_singleton] at hkv
      exact ⟨key, by rw [hkv]⟩

theorem assignDefaultName_some (m : RawMap) (defaultName : String) :
    assignDefaultName (some m) defaultName
      = .ret (some (if (m.get "name").eqStr "" || (m.get "name").isNil then
          m.set "name" (Value.str defaultName) else m)) := by
  unfold assignDefaultName
  simp only [RawMap.read, RawMap.write]
  split <;> rfl

theorem assignDefaultName_none (defaultName : String) :
    assignDefaultName none defaultName = .panic nilMapWrite := by
  rfl

theorem assignDefaultName_ret_some (entry : Option RawMap) (defaultName : String)
    (named : Option RawMap) (h : assignDefaultName entry defaultName = .ret named) :
    ∃ m, entry = some m := by
  cases entry with
  | none => simp [assignDefaultName_none] at h
  | some m => exact ⟨m, rfl⟩

theorem namedEntry_strKeys (m : RawMap) (defaultName : String)
    (h : ∀ kv ∈ m, ∃ k, kv.1 = Value.str k) :
    ∀ kv ∈ (if (m.get "name").eqStr "" || (m.get "name").isNil then
        m.set "name" (Value.str defaultName) else m), ∃ k, kv.1 = Value.str k := by
  split
  · exact RawMap.set_strKeys m "name" _ h
  · exact h

theorem CastKeysToStrings_keys (m : RawMap) (converted : StrMap)
    (h : CastKeysToStrings m = .ok converted) :
    converted.map (fun kv => Value.str kv.1) = m.map Prod.fst := by
  induction m generalizing converted with
  | nil =>
    simp only [CastKeysToStrings, Except.ok.injEq] at h
    subst h
    rfl
  | cons kv m ih =>
    obtain ⟨k, v⟩ := kv
    cases k with
    | str ks =>
      simp only [CastKeysToStrings] at h
      cases hc : CastKeysToStrings m with
      | error e => simp [hc] at h
      | ok conv =>
        simp only [hc, Except.ok.injEq] at h
        subst h
        simp [ih conv hc]
    | _ => simp [CastKeysToStrings] at h

theorem readStepsLoop_append (depth : Nat) (stepLoaders : List StepLoader)
    (pre rest : List (Option RawMap)) (i : Nat) (acc0 acc : List (Option Step))
    (hpre : readStepsLoop depth stepLoaders pre i acc0 = .ret (acc, none)) :
    readStepsLoop depth stepLoaders (pre ++ rest) i acc0
      = readStepsLoop depth stepLoaders rest (i + pre.length) acc := by
  induction pre generalizing i acc0 with
  | nil =>
    simp only [readStepsLoop, Outcome.ret.injEq, Prod.mk.injEq, and_true] at hpre
    subst hpre
    rfl
  | cons sd pre ih =>
    simp only [List.cons_append, readStepsLoop] at hpre ⊢
    cases ha : assignDefaultName sd (fmt.Sprintf "step-%d" [i + 1]) with
    | panic msg => simp [ha] at hpre
    | diverge => simp [ha] at hpre
    | ret named =>
      simp only [ha] at hpre ⊢
      cases hc : CastKeysToStrings (named.getD []) with
      | error e => simp [hc] at hpre
      | ok conv =>
        simp only [hc] at hpre ⊢
        cases hl : LoadStep depth stepLoaders (NewStepDef conv) with
        | ret r =>
          obtain ⟨s, e⟩ := r
          cases e with
          | none =>
            simp only [hl] at hpre ⊢
            have h := ih (i + 1) (acc0 ++ [s]) hpre
            have hidx : i + (sd :: pre).length = i + 1 + pre.length := by
              rw [List.length_cons]
              omega
            rw [hidx]
            exact h
          | some e => simp [hl, errors.Wrapf] at hpre
        | panic msg => simp [hl] at hpre
        | diverge => simp [hl] at hpre

theorem readSteps_nil_entry (depth : Nat) (stepLoaders : List StepLoader)
    (runner : Option StrMap) (pre post : List (Option RawMap)) (acc : List (Option Step))
    (hpre : readStepsFromStepDefs depth stepLoaders "" runner pre = .ret (acc, none)) :
    readStepsFromStepDefs depth stepLoaders "" runner (pre ++ none :: post)
      = .panic nilMapWrite := by
  simp only [readStepsFromStepDefs, ne_eq, not_true_eq_false, if_false] at hpre ⊢
  rw [readStepsLoop_append depth stepLoaders pre (none :: post) 0 [] acc hpre]
  simp only [readStepsLoop, assignDefaultName_none]

/-- C8: with an empty script, for an entry that is a (non-`nil`) map with string
keys at 0-based position `pre.length` whose predecessors loaded, the loop hands
to the key cast the map `named` and calls `LoadStep` on the StepDef of the
cast's result `converted`. When the entry's `name` is `nil` (missing) or the
empty string, `named` and `converted` have the name `step-<position+1>`;
otherwise `named` is the entry itself, and its own name (a string) is the name
of `converted`. Every other field of `named` is that of the entry, and
`converted` has the keys of `named`. -/
theorem readSteps_default_name (depth : Nat) (stepLoaders : List StepLoader)
    (runner : Option StrMap) (pre : List (Option RawMap)) (stepDef : RawMap)
    (post : List (Option RawMap)) (acc : List (Option Step))
    (hkeys : ∀ kv ∈ stepDef, ∃ k, kv.1 = Value.str k)
    (hpre : readStepsFromStepDefs depth stepLoaders "" runner pre = .ret (acc, none)) :
    ∃ (named : RawMap) (converted : StrMap),
      assignDefaultName (some stepDef) (fmt.Sprintf "step-%d" [pre.length + 1])
        = .ret (some named) ∧
      CastKeysToStrings named = .ok converted ∧
      readStepsFromStepDefs depth stepLoaders "" runner (pre ++ some stepDef :: post)
        = (match LoadStep depth stepLoaders (NewStepDef converted) with
          | .ret (s, none) => readStepsLoop depth stepLoaders post (pre.length + 1) (acc ++ [s])
          | .ret (_, some err) => .ret ([], errors.Wrapf (some err) "Error reading step[%d]" [])
          | .panic msg => .panic msg
          | .diverge => .diverge) ∧
      ((stepDef.get "name").isNil = true ∨ (stepDef.get "name").eqStr "" = true →
        named.get "name" = Value.str ("step-" ++ Nat.repr (pre.length + 1)) ∧
        converted.get "name" = Value.str ("step-" ++ Nat.repr (pre.length + 1))) ∧
      (¬((stepDef.get "name").isNil = true ∨ (stepDef.get "name").eqStr "" = true) →
        named = stepDef ∧
        ∀ s, stepDef.get "name" = Value.str s → converted.get "name" = Value.str s) ∧
      (∀ key, key ≠ "name" → named.get key = stepDef.get key) ∧
      converted.map (fun kv => Value.str kv.1) = named.map Prod.fst := by
  have hnamed := assignDefaultName_some stepDef (fmt.Sprintf "step-%d" [pre.length + 1])
  obtain ⟨converted, hconv⟩ := CastKeysToStrings_ok _
    (namedEntry_strKeys stepDef (fmt.Sprintf "step-%d" [pre.length + 1]) hkeys)
  refine ⟨_, converted, hnamed, hconv, ?_, ?_, ?_, ?_, CastKeysToStrings_keys _ _ hconv⟩
  · simp only [readStepsFromStepDefs, ne_eq, not_true_eq_false, if_false] at hpre ⊢
    rw [readStepsLoop_append depth stepLoaders pre (some stepDef :: post) 0 [] acc hpre]
    simp only [readStepsLoop, Nat.zero_add, hnamed, Option.getD_some, hconv]
  · intro h
    have h' : ((stepDef.get "name").eqStr "" || (stepDef.get "name").isNil) = true := by
      rcases h with h | h <;> simp [h]
    have hn : RawMap.get (if (stepDef.get "name").eqStr "" || (stepDef.get "name").isNil then
        stepDef.set "name" (Value.str (fmt.Sprintf "step-%d" [pre.length + 1])) else stepDef)
        "name" = Value.str ("step-" ++ Nat.repr (pre.length + 1)) := by
      rw [if_pos h', RawMap.get_set_same, sprintf_step]
    exact ⟨hn, by rw [CastKeysToStrings_get _ _ hconv, hn]⟩
  · intro h
    have h' : ¬((stepDef.get "name").eqStr "" || (stepDef.get "name").isNil) = true := by
      intro hc
      rw [Bool.or_eq_true] at hc
      exact h hc.symm
    have hn : (if (stepDef.get "name").eqStr "" || (stepDef.get "name").isNil then
        stepDef.set "name" (Value.str (fmt.Sprintf "step-%d" [pre.length + 1])) else stepDef)
        = stepDef := if_neg h'
    refine ⟨hn, fun s hs => ?_⟩
    rw [CastKeysToStrings_get _ _ hconv, hn, hs]
  · intro key hkey
    split
    · exact RawMap.get_set_other stepDef "name" key _ hkey
    · rfl

theorem readSteps_default_name_witness :
    (∀ kv ∈ ([(Value.str "script", Value.str "ls")] : RawMap), ∃ k, kv.1 = Value.str k) ∧
    readStepsFromStepDefs 0 (registered [namedLoader]) "" none
        [some [(Value.str "name", Value.str "first")]] = .ret ([some ⟨"first"⟩], none) ∧
    (∃ (named : RawMap) (converted : StrMap),
      CastKeysToStrings named = .ok converted ∧
      readStepsFromStepDefs 0 (registered [namedLoader]) "" none
          ([some [(Value.str "name", Value.str "first")]]
            ++ some [(Value.str "script", Value.str "ls")] :: [])
        = (match LoadStep 0 (registered [namedLoader]) (NewStepDef converted) with
          | .ret (s, none) =>
            readStepsLoop 0 (registered [namedLoader]) [] 2 ([some ⟨"first"⟩] ++ [s])
          | .ret (_, some err) => .ret ([], errors.Wrapf (some err) "Error reading step[%d]" [])
          | .panic msg => .panic msg
          | .diverge => .diverge) ∧
      named.get "name" = Value.str "step-2" ∧
      converted.get "name" = Value.str "step-2" ∧
      named.get "script" = Value.str "ls") ∧
    readStepsFromStepDefs 0 (registered [namedLoader]) "" none
        [some [(Value.str "name", Value.str "first")],
          some [(Value.str "script", Value.str "ls")]]
      = .ret ([some ⟨"first"⟩, some ⟨"step-2"⟩], none) := by
  have hkeys : ∀ kv ∈ ([(Value.str "script", Value.str "ls")] : RawMap),
      ∃ k, kv.1 = Value.str k := by
    intro kv hkv
    rw [List.mem_singleton] at hkv
    exact ⟨"script", by rw [hkv]⟩
  refine ⟨hkeys, rfl, ?_, rfl⟩
  obtain ⟨named, converted, _, hcast, hcall, hname, _, hother, _⟩ :=
    readSteps_default_name 0 (registered [namedLoader]) none
      [some [(Value.str "name", Value.str "first")]] [(Value.str "script", Value.str "ls")] []
      [some ⟨"first"⟩] hkeys rfl
  exact ⟨named, converted, hcast, hcall, (hname (Or.inl rfl)).1, (hname (Or.inl rfl)).2,
    hother "script" (by decide)⟩

theorem readStepsLoop_all_loaded (depth : Nat) (stepLoaders : List StepLoader)
    (stepDefs : List (Option RawMap)) (steps : List (Option Step)) (i : Nat)
    (acc : List (Option Step))
    (hlen : steps.length = stepDefs.length)
    (hload : ∀ j entry s, stepDefs[j]? = some entry → steps[j]? = some s →
      ∃ named converted,
        assignDefaultName entry (fmt.Sprintf "step-%d" [i + j + 1]) = .ret (some named) ∧
        CastKeysToStrings named = .ok converted ∧
        LoadStep depth stepLoaders (NewStepDef converted) = .ret (s, none)) :
    readStepsLoop depth stepLoaders stepDefs i acc = .ret (acc ++ steps, none) := by
  induction stepDefs generalizing steps i acc with
  | nil =>
    have : steps = [] := List.length_eq_zero.mp hlen
    subst this
    simp [readStepsLoop]
  | cons sd rest ih =>
    cases steps with
    | nil => simp at hlen
    | cons s steps =>
      obtain ⟨named, conv, hnamed, hconv, hl⟩ := hload 0 sd s (by simp) (by simp)
      simp only [Nat.add_zero] at hnamed
      simp only [readStepsLoop, hnamed, Option.getD_some, hconv, hl]
      have hlen' : steps.length = rest.length := by simpa using hlen
      rw [ih steps (i + 1) (acc ++ [s]) hlen', List.append_assoc, List.singleton_append]
      intro j entry s' hj hs'
      have h := hload (j + 1) entry s' (by simpa using hj) (by simpa using hs')
      have hidx : i + (j + 1) + 1 = i + 1 + j + 1 := by omega
      rw [hidx] at h
      exact h

/-- C9: with an empty script, when every entry of the step list is a map that
default naming turns into `named` (so the entry is not a `nil` map), `named`
has string keys (it casts to `converted`) and the registry loads `converted`
with step `steps[j]` and no error, `readStepsFromStepDefs` returns exactly
`steps` (one step per entry, in declaration order) and no error; for the empty
list that is the empty list. No entry of such a list is a `nil` map. -/
theorem readSteps_all_loaded (depth : Nat) (stepLoaders : List StepLoader)
    (runner : Option StrMap) (stepDefs : List (Option RawMap)) (steps : List (Option Step))
    (hlen : steps.length = stepDefs.length)
    (hload : ∀ j entry s, stepDefs[j]? = some entry → steps[j]? = some s →
      ∃ named converted,
        assignDefaultName entry (fmt.Sprintf "step-%d" [j + 1]) = .ret (some named) ∧
        CastKeysToStrings named = .ok converted ∧
        LoadStep depth stepLoaders (NewStepDef converted) = .ret (s, none)) :
    readStepsFromStepDefs depth stepLoaders "" runner stepDefs = .ret (steps, none) ∧
    (stepDefs = [] → steps = []) ∧
    (∀ entry ∈ stepDefs, ∃ stepDef, entry = some stepDef) := by
  refine ⟨?_, ?_, ?_⟩
  · simp only [readStepsFromStepDefs, ne_eq, not_true_eq_false, if_false]
    rw [readStepsLoop_all_loaded depth stepLoaders stepDefs steps 0 [] hlen]
    · simp
    · intro j entry s hj hs
      simpa using hload j entry s hj hs
  · intro h
    subst h
    exact List.length_eq_zero.mp hlen
  · intro entry hmem
    obtain ⟨j, hj⟩ := List.mem_iff_getElem?.mp hmem
    have hjlt : j < stepDefs.length := (List.getElem?_eq_some.mp hj).1
    have hjs : j < steps.length := by rw [hlen]; exact hjlt
    obtain ⟨named, converted, hnamed, _, _⟩ :=
      hload j entry (steps.get ⟨j, hjs⟩) hj (List.getElem?_eq_some.mpr ⟨hjs, rfl⟩)
    exact assignDefaultName_ret_some entry _ _ hnamed

theorem readSteps_all_loaded_witness :
    readStepsFromStepDefs 0 (registered [namedLoader]) "" none
        [some [(Value.str "name", Value.str "build")],
          some [(Value.str "script", Value.str "ls")]]
      = .ret ([some ⟨"build"⟩, some ⟨"step-2"⟩], none) :=
  (readSteps_all_loaded 0 (registered [namedLoader]) none
    [some [(Value.str "name", Value.str "build")], some [(Value.str "script", Value.str "ls")]]
    [some ⟨"build"⟩, some ⟨"step-2"⟩] rfl
    (by
      intro j entry s hj hs
      match j with
      | 0 =>
        simp only [List.getElem?_cons_zero, Option.some.injEq] at hj hs
        subst hj hs
        exact ⟨[(Value.str "name", Value.str "build")], [("name", Value.str "build")],
          rfl, rfl, rfl⟩
      | 1 =>
        simp only [List.getElem?_cons_succ, List.getElem?_cons_zero, Option.some.injEq] at hj hs
        subst hj hs
        exact ⟨[(Value.str "script", Value.str "ls"), (Value.str "name", Value.str "step-2")],
          [("script", Value.str "ls"), ("name", Value.str "step-2")], rfl, rfl, rfl⟩
      | k + 2 => simp at hj)).1

/-- C10 (the failing input): the step list `[bad]` fails at position 0 and the
step list `[ok, bad]` fails at position 1; both calls return, with no steps,
the same error, whose annotation is "Error reading step[%!d(MISSING)]" and
whose text names no position. -/
theorem readSteps_error_without_position :
    readStepsFromStepDefs 0 (registered [namedLoader]) "" none
        [some [(Value.str "name", Value.str "bad")]]
      = .ret ([], some (Error.wrap
          (Error.wrap (Error.errorf "bad step") "all loader failed to load step")
          "Error reading step[%!d(MISSING)]")) ∧
    readStepsFromStepDefs 0 (registered [namedLoader]) "" none
        [some [(Value.str "name", Value.str "ok")], some [(Value.str "name", Value.str "bad")]]
      = .ret ([], some (Error.wrap
          (Error.wrap (Error.errorf "bad step") "all loader failed to load step")
          "Error reading step[%!d(MISSING)]")) ∧
    (Error.wrap (Error.wrap (Error.errorf "bad step") "all loader failed to load step")
        "Error reading step[%!d(MISSING)]").text
      = "Error reading step[%!d(MISSING)]: all loader failed to load step: bad step" :=
  ⟨by rfl, by rfl, by decide⟩

/-! ## The schema resolver: branch selection and error propagation -/

theorem sprintf_v1_config : fmt.Sprintf "Error while reading v1 config" []
    = "Error while reading v1 config" := by
  decide

theorem sprintf_v2_config : fmt.Sprintf "Error while reading v2 config" []
    = "Error while reading v2 config" := by
  decide

theorem sprintf_not_v2 : fmt.Sprintf "Not v2 format: `tasks`, `script`, `steps` are missing." []
    = "Not v2 format: `tasks`, `script`, `steps` are missing." := by
  decide

theorem unmarshalV1_ok (depth : Nat) (stepLoaders : List StepLoader) (t : TaskDef)
    (v1 : TaskDefV1) (inputs : List (Option InputConfig)) (steps : List (Option Step))
    (hinputs : resolveInputs v1.Inputs v1.Inputs v1.Parameters v1.Options = .ret inputs)
    (hsteps : readStepsFromStepDefs depth stepLoaders v1.Script v1.Runner v1.StepDefs
      = .ret (steps, none)) :
    unmarshalV1 depth stepLoaders t v1
      = .ret ({ Name := v1.Name, Description := v1.Description, Inputs := inputs,
                TaskDefs := v1.TaskDefs, Script := v1.Script, Steps := steps,
                Autoenv := v1.Autoenv, Autodir := v1.Autodir,
                Interactive := v1.Interactive }, none) := by
  simp only [unmarshalV1, hinputs, hsteps, Outcome.bind, errors.WithStack]

theorem unmarshalV1_err (depth : Nat) (stepLoaders : List StepLoader) (t : TaskDef)
    (v1 : TaskDefV1) (inputs : List (Option InputConfig)) (steps : List (Option Step))
    (err : Error)
    (hinputs : resolveInputs v1.Inputs v1.Inputs v1.Parameters v1.Options = .ret inputs)
    (hsteps : readStepsFromStepDefs depth stepLoaders v1.Script v1.Runner v1.StepDefs
      = .ret (steps, some err)) :
    unmarshalV1 depth stepLoaders t v1
      = .ret ({ Name := v1.Name, Description := v1.Description, Inputs := inputs,
                TaskDefs := v1.TaskDefs, Script := v1.Script, Steps := t.Steps,
                Autoenv := v1.Autoenv, Autodir := v1.Autodir,
                Interactive := v1.Interactive },
              some (Error.wrap err "Error while reading v1 config")) := by
  simp only [unmarshalV1, hinputs, hsteps, Outcome.bind, errors.Wrapf, sprintf_v1_config]

theorem unmarshalV2_ok (depth : Nat) (stepLoaders : List StepLoader) (t : TaskDef)
    (unmarshal : Unmarshal) (v2 : TaskDefV2) (e2 : Option Error) (script : String)
    (inputs : List (Option InputConfig)) (taskDefs : List (Option TaskDef))
    (steps : List (Option Step))
    (hv2 : unmarshal.v2 (some TaskDefV2.initial) = (some v2, e2))
    (hscript : resolveScript v2.Script = .ret script)
    (haccept : v2Error v2 script e2 = none)
    (hinputs : resolveInputs t.Inputs v2.Inputs v2.Parameters v2.Options = .ret inputs)
    (htasks : TransformV2FlowConfigMapToArray v2.TaskDefs = .ret taskDefs)
    (hsteps : readStepsFromStepDefs depth stepLoaders script v2.Runner v2.StepDefs
      = .ret (steps, none)) :
    unmarshalV2 depth stepLoaders t unmarshal
      = .ret ({ Name := t.Name, Description := v2.Description, Inputs := inputs,
                TaskDefs := taskDefs, Script := script, Steps := steps,
                Autoenv := v2.Autoenv, Autodir := v2.Autodir,
                Interactive := v2.Interactive }, none) := by
  simp only [unmarshalV2, hv2, hscript, haccept, hinputs, htasks, hsteps, Outcome.bind,
    errors.WithStack]

theorem unmarshalV2_err (depth : Nat) (stepLoaders : List StepLoader) (t : TaskDef)
    (unmarshal : Unmarshal) (v2 : TaskDefV2) (e2 : Option Error) (script : String)
    (inputs : List (Option InputConfig)) (taskDefs : List (Option TaskDef))
    (steps : List (Option Step)) (err : Error)
    (hv2 : unmarshal.v2 (some TaskDefV2.initial) = (some v2, e2))
    (hscript : resolveScript v2.Script = .ret script)
    (haccept : v2Error v2 script e2 = none)
    (hinputs : resolveInputs t.Inputs v2.Inputs v2.Parameters v2.Options = .ret inputs)
    (htasks : TransformV2FlowConfigMapToArray v2.TaskDefs = .ret taskDefs)
    (hsteps : readStepsFromStepDefs depth stepLoaders script v2.Runner v2.StepDefs
      = .ret (steps, some err)) :
    unmarshalV2 depth stepLoaders t unmarshal
      = .ret ({ Name := t.Name, Description := v2.Description, Inputs := inputs,
                TaskDefs := taskDefs, Script := t.Script, Steps := t.Steps,
                Autoenv := t.Autoenv, Autodir := t.Autodir,
                Interactive := t.Interactive },
              some (Error.wrap err "Error while reading v2 config")) := by
  simp only [unmarshalV2, hv2, hscript, haccept, hinputs, htasks, hsteps, Outcome.bind,
    errors.Wrapf, sprintf_v2_config]

theorem unmarshalV2_reject (depth : Nat) (stepLoaders : List StepLoader) (t : TaskDef)
    (unmarshal : Unmarshal) (v2 : TaskDefV2) (e2 : Option Error) (script : String) (e : Error)
    (hv2 : unmarshal.v2 (some TaskDefV2.initial) = (some v2, e2))
    (hscript : resolveScript v2.Script = .ret script)
    (hreject : v2Error v2 script e2 = some e) :
    unmarshalV2 depth stepLoaders t unmarshal = .ret (t, some (Error.withStack e)) := by
  simp only [unmarshalV2, hv2, hscript, hreject, Outcome.bind, errors.WithStack]

theorem v1Error_none_iff (v1 : TaskDefV1) :
    v1Error v1 none = none ↔ (v1.Name ≠ "" ∨ v1.TaskDefs ≠ []) := by
  unfold v1Error
  by_cases hn : v1.Name = "" <;> by_cases ht : v1.TaskDefs = [] <;> simp [hn, ht]

theorem v2Error_none_iff (v2 : TaskDefV2) (script : String) :
    v2Error v2 script none = none
      ↔ (v2.TaskDefs ≠ [] ∨ script ≠ "" ∨ v2.StepDefs ≠ []) := by
  unfold v2Error
  by_cases ht : v2.TaskDefs = [] <;> by_cases hs : script = "" <;>
    by_cases hd : v2.StepDefs = [] <;> simp [ht, hs, hd]

/-- C11: for a document that decodes without error into the version-1 shape,
the version-1 test passes exactly when `name` or `tasks` is non-empty; then
`UnmarshalYAML` runs the version-1 branch, and otherwise it runs the version-2
branch, where a document that is accepted and whose steps load returns a `nil`
error: the version-1 mismatch is not reported. -/
theorem UnmarshalYAML_v1_commit (depth : Nat) (stepLoaders : List StepLoader) (t : TaskDef)
    (unmarshal : Unmarshal) (v1 : TaskDefV1)
    (hv3 : unmarshal.v3 = none) (hv1 : unmarshal.v1 TaskDefV1.initial = (v1, none)) :
    (v1Error v1 none = none ↔ (v1.Name ≠ "" ∨ v1.TaskDefs ≠ [])) ∧
    (v1.Name ≠ "" ∨ v1.TaskDefs ≠ [] →
      t.UnmarshalYAML depth stepLoaders unmarshal = unmarshalV1 depth stepLoaders t v1) ∧
    (¬(v1.Name ≠ "" ∨ v1.TaskDefs ≠ []) →
      t.UnmarshalYAML depth stepLoaders unmarshal = unmarshalV2 depth stepLoaders t unmarshal) ∧
    (¬(v1.Name ≠ "" ∨ v1.TaskDefs ≠ []) →
      ∀ v2 script inputs taskDefs steps,
        unmarshal.v2 (some TaskDefV2.initial) = (some v2, none) →
        resolveScript v2.Script = .ret script →
        (v2.TaskDefs ≠ [] ∨ script ≠ "" ∨ v2.StepDefs ≠ []) →
        resolveInputs t.Inputs v2.Inputs v2.Parameters v2.Options = .ret inputs →
        TransformV2FlowConfigMapToArray v2.TaskDefs = .ret taskDefs →
        readStepsFromStepDefs depth stepLoaders script v2.Runner v2.StepDefs
          = .ret (steps, none) →
        ∃ t', t.UnmarshalYAML depth stepLoaders unmarshal = .ret (t', none)) := by
  have hv2branch : ¬(v1.Name ≠ "" ∨ v1.TaskDefs ≠ []) →
      t.UnmarshalYAML depth stepLoaders unmarshal
        = unmarshalV2 depth stepLoaders t unmarshal := by
    intro h
    cases hE : v1Error v1 none with
    | none => exact absurd ((v1Error_none_iff v1).mp hE) h
    | some e' => exact UnmarshalYAML_v2 depth stepLoaders t unmarshal v1 none e' hv3 hv1 hE
  refine ⟨v1Error_none_iff v1, ?_, hv2branch, ?_⟩
  · intro h
    exact UnmarshalYAML_v1 depth stepLoaders t unmarshal v1 none hv3 hv1
      ((v1Error_none_iff v1).mpr h)
  · intro h v2 script inputs taskDefs steps hv2 hscript hacc hinputs htasks hsteps
    rw [hv2branch h]
    exact ⟨_, unmarshalV2_ok depth stepLoaders t unmarshal v2 none script inputs taskDefs steps
      hv2 hscript ((v2Error_none_iff v2 script).mpr hacc) hinputs htasks hsteps⟩

theorem UnmarshalYAML_v1_commit_witness :
    TaskDef.zero.UnmarshalYAML 0 init docV1Legacy
      = unmarshalV1 0 init TaskDef.zero (docV1Legacy.v1 TaskDefV1.initial).1 ∧
    (∃ t', TaskDef.zero.UnmarshalYAML 0 (registered [succeedingLoader "S"]) docV2Unified
      = .ret (t', none)) :=
  ⟨(UnmarshalYAML_v1_commit 0 init TaskDef.zero docV1Legacy
      (docV1Legacy.v1 TaskDefV1.initial).1 rfl rfl).2.1 (Or.inl (by decide)),
    (UnmarshalYAML_v1_commit 0 (registered [succeedingLoader "S"]) TaskDef.zero docV2Unified
      (docV2Unified.v1 TaskDefV1.initial).1 rfl rfl).2.2.2
      (by simp [docV2Unified, TaskDefV1.initial])
      _ "make" [some (inputNamed "target")] [] [some ⟨"S"⟩] rfl rfl
      (Or.inr (Or.inl (by decide))) rfl rfl rfl⟩

/-- C12: for a document the version-1 test rejects and that decodes without
error into the version-2 shape `v2` with resolved script `script`, the
version-2 test passes exactly when `tasks`, `script` or `steps` is non-empty.
When none is, `UnmarshalYAML` returns the version-2 mismatch error and leaves
the receiver as it was; when one is and the sub-steps return,
`UnmarshalYAML` returns the receiver filled from `v2`. -/
theorem UnmarshalYAML_v2_accept (depth : Nat) (stepLoaders : List StepLoader) (t : TaskDef)
    (unmarshal : Unmarshal) (v1 : TaskDefV1) (e1 : Option Error) (e1' : Error)
    (v2 : TaskDefV2) (script : String)
    (hv3 : unmarshal.v3 = none) (hv1 : unmarshal.v1 TaskDefV1.initial = (v1, e1))
    (hreject : v1Error v1 e1 = some e1')
    (hv2 : unmarshal.v2 (some TaskDefV2.initial) = (some v2, none))
    (hscript : resolveScript v2.Script = .ret script) :
    (v2Error v2 script none = none
      ↔ (v2.TaskDefs ≠ [] ∨ script ≠ "" ∨ v2.StepDefs ≠ [])) ∧
    (¬(v2.TaskDefs ≠ [] ∨ script ≠ "" ∨ v2.StepDefs ≠ []) →
      t.UnmarshalYAML depth stepLoaders unmarshal
        = .ret (t, some (Error.withStack
            (Error.errorf "Not v2 format: `tasks`, `script`, `steps` are missing.")))) ∧
    ((v2.TaskDefs ≠ [] ∨ script ≠ "" ∨ v2.StepDefs ≠ []) →
      ∀ inputs taskDefs steps,
        resolveInputs t.Inputs v2.Inputs v2.Parameters v2.Options = .ret inputs →
        TransformV2FlowConfigMapToArray v2.TaskDefs = .ret taskDefs →
        readStepsFromStepDefs depth stepLoaders script v2.Runner v2.StepDefs
          = .ret (steps, none) →
        t.UnmarshalYAML depth stepLoaders unmarshal
          = .ret ({ Name := t.Name, Description := v2.Description, Inputs := inputs,
                    TaskDefs := taskDefs, Script := script, Steps := steps,
                    Autoenv := v2.Autoenv, Autodir := v2.Autodir,
                    Interactive := v2.Interactive }, none)) := by
  rw [UnmarshalYAML_v2 depth stepLoaders t unmarshal v1 e1 e1' hv3 hv1 hreject]
  refine ⟨v2Error_none_iff v2 script, ?_, ?_⟩
  · intro h
    have hE : v2Error v2 script none
        = some (Error.errorf "Not v2 format: `tasks`, `script`, `steps` are missing.") := by
      simp only [not_or, not_not] at h
      simp [v2Error, h.1, h.2.1, h.2.2, fmt.Errorf, sprintf_not_v2]
    exact unmarshalV2_reject depth stepLoaders t unmarshal v2 none script _ hv2 hscript hE
  · intro h inputs taskDefs steps hinputs htasks hsteps
    exact unmarshalV2_ok depth stepLoaders t unmarshal v2 none script inputs taskDefs steps
      hv2 hscript ((v2Error_none_iff v2 script).mpr h) hinputs htasks hsteps

theorem UnmarshalYAML_v2_accept_witness :
    TaskDef.zero.UnmarshalYAML 0 init docEmpty
      = .ret (TaskDef.zero, some (Error.withStack
          (Error.errorf "Not v2 format: `tasks`, `script`, `steps` are missing."))) :=
  (UnmarshalYAML_v2_accept 0 init TaskDef.zero docEmpty TaskDefV1.initial none
    (Error.errorf "Not v1 format: Both `name` and `tasks` are empty") TaskDefV2.initial ""
    rfl rfl (by decide) rfl rfl).2.1 (by simp [TaskDefV2.initial])

/-- C13: when the version-1 branch is committed to and step synthesis returns
the error `err`, `UnmarshalYAML` returns `err` wrapped with "Error while
reading v1 config", whatever the callback would decode into the version-2
shape (it is not consulted); when the version-2 branch is committed to and
step synthesis returns `err`, `UnmarshalYAML` returns `err` wrapped with
"Error while reading v2 config". -/
theorem UnmarshalYAML_step_error (depth : Nat) (stepLoaders : List StepLoader) (t : TaskDef)
    (unmarshal : Unmarshal) (hv3 : unmarshal.v3 = none) :
    (∀ v1 e inputs steps err,
      unmarshal.v1 TaskDefV1.initial = (v1, e) → v1Error v1 e = none →
      resolveInputs v1.Inputs v1.Inputs v1.Parameters v1.Options = .ret inputs →
      readStepsFromStepDefs depth stepLoaders v1.Script v1.Runner v1.StepDefs
        = .ret (steps, some err) →
      ∃ t', ∀ v2fn,
        t.UnmarshalYAML depth stepLoaders { v3 := unmarshal.v3, v1 := unmarshal.v1, v2 := v2fn }
          = .ret (t', some (Error.wrap err "Error while reading v1 config"))) ∧
    (∀ v1 e1 e1' v2 e2 script inputs taskDefs steps err,
      unmarshal.v1 TaskDefV1.initial = (v1, e1) → v1Error v1 e1 = some e1' →
      unmarshal.v2 (some TaskDefV2.initial) = (some v2, e2) →
      resolveScript v2.Script = .ret script → v2Error v2 script e2 = none →
      resolveInputs t.Inputs v2.Inputs v2.Parameters v2.Options = .ret inputs →
      TransformV2FlowConfigMapToArray v2.TaskDefs = .ret taskDefs →
      readStepsFromStepDefs depth stepLoaders script v2.Runner v2.StepDefs
        = .ret (steps, some err) →
      ∃ t', t.UnmarshalYAML depth stepLoaders unmarshal
        = .ret (t', some (Error.wrap err "Error while reading v2 config"))) := by
  constructor
  · intro v1 e inputs steps err hv1 hacc hinputs hsteps
    refine ⟨{ Name := v1.Name, Description := v1.Description, Inputs := inputs,
              TaskDefs := v1.TaskDefs, Script := v1.Script, Steps := t.Steps,
              Autoenv := v1.Autoenv, Autodir := v1.Autodir,
              Interactive := v1.Interactive }, fun v2fn => ?_⟩
    rw [UnmarshalYAML_v1 depth stepLoaders t
      { v3 := unmarshal.v3, v1 := unmarshal.v1, v2 := v2fn } v1 e hv3 hv1 hacc]
    exact unmarshalV1_err depth stepLoaders t v1 inputs steps err hinputs hsteps
  · intro v1 e1 e1' v2 e2 script inputs taskDefs steps err hv1 hrej hv2 hscript hacc hinputs
      htasks hsteps
    rw [UnmarshalYAML_v2 depth stepLoaders t unmarshal v1 e1 e1' hv3 hv1 hrej]
    exact ⟨_, unmarshalV2_err depth stepLoaders t unmarshal v2 e2 script inputs taskDefs steps
      err hv2 hscript hacc hinputs htasks hsteps⟩

theorem UnmarshalYAML_step_error_witness :
    (∃ t', ∀ v2fn,
      TaskDef.zero.UnmarshalYAML 0 init
          { v3 := docV1ScriptAndSteps.v3, v1 := docV1ScriptAndSteps.v1, v2 := v2fn }
        = .ret (t', some (Error.wrap (Error.errorf "both script and steps exist.")
            "Error while reading v1 config"))) ∧
    (∃ t', TaskDef.zero.UnmarshalYAML 0 (registered [namedLoader]) docV2BadStep
      = .ret (t', some (Error.wrap
          (Error.wrap (Error.wrap (Error.errorf "bad step") "all loader failed to load step")
            "Error reading step[%!d(MISSING)]")
          "Error while reading v2 config"))) :=
  ⟨(UnmarshalYAML_step_error 0 init TaskDef.zero docV1ScriptAndSteps rfl).1
      _ none [] [] (Error.errorf "both script and steps exist.") rfl (by decide) rfl rfl,
    (UnmarshalYAML_step_error 0 (registered [namedLoader]) TaskDef.zero docV2BadStep rfl).2
      _ none (Error.errorf "Not v1 format: Both `name` and `tasks` are empty") _ none ""
      [] [] [] _ rfl (by decide) rfl rfl (by decide) rfl rfl rfl⟩

/-! ## The script of the version-2 branch -/

theorem intercalate_go_eq (sep : String) (rest : List String) (acc : String) :
    String.intercalate.go acc sep rest = acc ++ String.intercalate.go "" sep rest := by
  induction rest generalizing acc with
  | nil => simp [String.intercalate.go]
  | cons a rest ih =>
    simp only [String.intercalate.go]
    rw [ih, ih ("" ++ sep ++ a)]
    simp [String.append_assoc]

theorem intercalate_cons_cons (sep a b : String) (rest : List String) :
    String.intercalate sep (a :: b :: rest) = a ++ sep ++ String.intercalate sep (b :: rest) := by
  simp only [String.intercalate, String.intercalate.go]
  rw [intercalate_go_eq sep rest (a ++ sep ++ b), intercalate_go_eq sep rest b]
  simp [String.append_assoc]

theorem assertStrings_strs (ss : List String) :
    assertStrings (ss.map Value.str) = .ret ss := by
  induction ss with
  | nil => rfl
  | cons a rest ih => simp [assertStrings, ih, Outcome.bind]

/-- C14: in the version-2 branch a `script` that is a string resolves to
itself and a sequence of strings resolves to the strings joined by single
newlines (the empty sequence to the empty string, one string to itself, no
newline before the first or after the last); when the branch is accepted and
step synthesis on the resolved script succeeds with `steps`, the receiver gets
`Script` = the resolved script and `Steps` = `steps`. -/
theorem UnmarshalYAML_v2_script (depth : Nat) (stepLoaders : List StepLoader) (t : TaskDef)
    (unmarshal : Unmarshal) (v1 : TaskDefV1) (e1 : Option Error) (e1' : Error)
    (v2 : TaskDefV2) (e2 : Option Error) (script : String)
    (inputs : List (Option InputConfig)) (taskDefs : List (Option TaskDef))
    (steps : List (Option Step))
    (hv3 : unmarshal.v3 = none) (hv1 : unmarshal.v1 TaskDefV1.initial = (v1, e1))
    (hreject : v1Error v1 e1 = some e1')
    (hv2 : unmarshal.v2 (some TaskDefV2.initial) = (some v2, e2))
    (hvalue : v2.Script = Value.str script ∨
      ∃ ss, v2.Script = Value.seq (ss.map Value.str) ∧ script = String.intercalate "\n" ss)
    (haccept : v2Error v2 script e2 = none)
    (hinputs : resolveInputs t.Inputs v2.Inputs v2.Parameters v2.Options = .ret inputs)
    (htasks : TransformV2FlowConfigMapToArray v2.TaskDefs = .ret taskDefs)
    (hsteps : readStepsFromStepDefs depth stepLoaders script v2.Runner v2.StepDefs
      = .ret (steps, none)) :
    resolveScript v2.Script = .ret script ∧
    (∃ t', t.UnmarshalYAML depth stepLoaders unmarshal = .ret (t', none) ∧
      t'.Script = script ∧ t'.Steps = steps) ∧
    String.intercalate "\n" [] = "" ∧
    (∀ a, String.intercalate "\n" [a] = a) ∧
    (∀ a b rest, String.intercalate "\n" (a :: b :: rest)
      = a ++ "\n" ++ String.intercalate "\n" (b :: rest)) := by
  have hscript : resolveScript v2.Script = .ret script := by
    rcases hvalue with h | ⟨ss, h, hjoin⟩
    · rw [h]
      rfl
    · rw [h, hjoin]
      simp [resolveScript, assertStrings_strs, Outcome.bind]
  refine ⟨hscript, ?_, rfl, fun a => rfl, fun a b rest => intercalate_cons_cons "\n" a b rest⟩
  rw [UnmarshalYAML_v2 depth stepLoaders t unmarshal v1 e1 e1' hv3 hv1 hreject]
  exact ⟨_, unmarshalV2_ok depth stepLoaders t unmarshal v2 e2 script inputs taskDefs steps
    hv2 hscript haccept hinputs htasks hsteps, rfl, rfl⟩

theorem UnmarshalYAML_v2_script_witness :
    resolveScript (Value.seq [Value.str "echo start", Value.str "echo done"])
      = .ret "echo start\necho done" ∧
    (∃ t', TaskDef.zero.UnmarshalYAML 0 (registered [succeedingLoader "S"]) docV2ScriptLines
        = .ret (t', none) ∧
      t'.Script = "echo start\necho done" ∧ t'.Steps = [some ⟨"S"⟩]) :=
  have h := UnmarshalYAML_v2_script 0 (registered [succeedingLoader "S"]) TaskDef.zero
    docV2ScriptLines TaskDefV1.initial
    (some (Error.errorf "cannot unmarshal !!seq into string"))
    (Error.errorf "Not v1 format: Both `name` and `tasks` are empty")
    { TaskDefV2.initial with
      Script := Value.seq [Value.str "echo start", Value.str "echo done"] }
    none "echo start\necho done" [] [] [some ⟨"S"⟩] rfl rfl (by decide) rfl
    (Or.inr ⟨["echo start", "echo done"], rfl, by decide⟩) (by decide) rfl rfl rfl
  ⟨h.1, h.2.1⟩

/-! ## Child tasks of the version-2 branch: `TransformV2FlowConfigMapToArray` -/

theorem TransformV2_some (m : List (String × TaskDef)) :
    TransformV2FlowConfigMapToArray (m.map fun kb => (kb.1, some kb.2))
      = .ret (m.map fun kb => some (kb.2.CopyTo { TaskDef.zero with Name := kb.1 })) := by
  induction m with
  | nil => rfl
  | cons kb rest ih =>
    simp only [List.map_cons, TransformV2FlowConfigMapToArray, ih, Outcome.bind]

/-- C15: on a map `m` whose bodies are all non-`nil`, enumerated in any order,
`TransformV2FlowConfigMapToArray` returns one TaskDef per entry: the entry's
key as `Name` and the body's description, inputs, child tasks, steps, script
and flags (the body's own `Name` is dropped). So the result has as many
elements as `m`, their names are the keys of `m`, and two enumeration orders of
the same map give the same elements up to order. -/
theorem TransformV2_entries (m : List (String × TaskDef)) :
    (∃ result, TransformV2FlowConfigMapToArray (m.map fun kb => (kb.1, some kb.2))
        = .ret result ∧
      result = m.map (fun kb => some
        ({ Name := kb.1, Description := kb.2.Description, Inputs := kb.2.Inputs,
           TaskDefs := kb.2.TaskDefs, Script := kb.2.Script, Steps := kb.2.Steps,
           Autoenv := kb.2.Autoenv, Autodir := kb.2.Autodir,
           Interactive := kb.2.Interactive } : TaskDef)) ∧
      result.length = m.length ∧
      result.map (Option.map TaskDef.Name) = m.map (fun kb => some kb.1)) ∧
    (∀ m' : List (String × TaskDef), m.Perm m' →
      ∃ result result',
        TransformV2FlowConfigMapToArray (m.map fun kb => (kb.1, some kb.2)) = .ret result ∧
        TransformV2FlowConfigMapToArray (m'.map fun kb => (kb.1, some kb.2)) = .ret result' ∧
        result.Perm result') := by
  constructor
  · refine ⟨_, TransformV2_some m, ?_, ?_, ?_⟩
    · rfl
    · simp
    · simp [TaskDef.CopyTo, Function.comp_def]
  · intro m' hperm
    exact ⟨_, _, TransformV2_some m, TransformV2_some m', hperm.map _⟩

theorem TransformV2_entries_witness :
    ∃ result result',
      TransformV2FlowConfigMapToArray
          [("build", some (bodyWithScript "x" "make")), ("test", some (bodyWithScript "y" "go test"))]
        = .ret result ∧
      TransformV2FlowConfigMapToArray
          [("test", some (bodyWithScript "y" "go test")), ("build", some (bodyWithScript "x" "make"))]
        = .ret result' ∧
      result.Perm result' :=
  (TransformV2_entries [("build", bodyWithScript "x" "make"), ("test", bodyWithScript "y" "go test")]).2
    [("test", bodyWithScript "y" "go test"), ("build", bodyWithScript "x" "make")]
    (List.Perm.swap _ _ _)

/-! ## The dynamic-map path: `TransformV3TaskDefMapToArray` -/

theorem CastKeysToStrings_strKeys (body : RawMap)
    (hkeys : ∀ kv ∈ body, ∃ key, kv.1 = Value.str key) :
    ∃ s2i, CastKeysToStrings body = .ok s2i ∧ ∀ key, StrMap.get s2i key = RawMap.get body key := by
  obtain ⟨s2i, h⟩ := CastKeysToStrings_ok body hkeys
  exact ⟨s2i, h, CastKeysToStrings_get body s2i h⟩

/-- C16 (counterexample): the body `{script: null}` contains the key `script`,
yet the leaf test is false for it: the body is recursed into (and the
recursion panics on the `null`, which is not a map) instead of being decoded. -/
theorem leaf_script_null :
    (∃ v, (Value.str "script", v) ∈ ([(Value.str "script", Value.null)] : RawMap)) ∧
    CastKeysToStrings [(Value.str "script", Value.null)] = .ok [("script", Value.null)] ∧
    leaf [("script", Value.null)] = false ∧
    ¬(leaf [("script", Value.null)] = true
      ↔ ∃ v, (Value.str "script", v) ∈ ([(Value.str "script", Value.null)] : RawMap)) ∧
    TransformV3TaskDefMapToArray scriptDecoder 1
        [("k", Value.imap [(Value.str "script", Value.null)])]
      = .panic notAMap := by
  refine ⟨⟨Value.null, by simp⟩, rfl, rfl, ?_, rfl⟩
  intro h
  have hleaf : leaf [("script", Value.null)] = true := h.mpr ⟨Value.null, by simp⟩
  exact absurd hleaf (by decide)

/-- C16 (amended): for an entry `k` whose body has string keys, the leaf test is
true exactly when the value under `script` is not `nil`; then the entry is the
TaskDef decoded from the body (no recursion); otherwise, also when `script` is
present with a `nil` value, the body is recursed into and the result becomes
the entry's child tasks. -/
theorem transformV3_leaf_iff (decode : Decoder)
    (recurse : StrMap → Outcome (List (Option TaskDef))) (k : String) (body : RawMap)
    (hkeys : ∀ kv ∈ body, ∃ key, kv.1 = Value.str key) :
    ∃ s2i, CastKeysToStrings body = .ok s2i ∧
      (leaf s2i = true ↔ (body.get "script").isNil = false) ∧
      ((body.get "script").isNil = false →
        transformV3Entry decode recurse k (Value.imap body)
          = (match decode s2i { TaskDef.zero with Name := k } with
            | .error err => .panic (Error.withStack err).text
            | .ok t' => .ret t') ∧
        ∀ depth rest, TransformV3TaskDefMapToArray decode depth ((k, Value.imap body) :: rest)
          = (match decode s2i { TaskDef.zero with Name := k } with
            | .error err => .panic (Error.withStack err).text
            | .ok t' =>
              (TransformV3TaskDefMapToArray decode depth rest).bind fun result =>
                .ret (some t' :: result))) ∧
      ((body.get "script").isNil = true →
        transformV3Entry decode recurse k (Value.imap body)
          = ((recurse s2i).bind fun taskDefs =>
              .ret { TaskDef.zero with Name := k, TaskDefs := taskDefs }) ∧
        ∀ depth rest,
          TransformV3TaskDefMapToArray decode (depth + 1) ((k, Value.imap body) :: rest)
            = ((TransformV3TaskDefMapToArray decode depth s2i).bind fun taskDefs =>
                (TransformV3TaskDefMapToArray decode (depth + 1) rest).bind fun result =>
                  .ret (some { TaskDef.zero with Name := k, TaskDefs := taskDefs } :: result))) := by
  obtain ⟨s2i, hcast, hget⟩ := CastKeysToStrings_strKeys body hkeys
  have hleaf : leaf s2i = !(body.get "script").isNil := by
    simp only [leaf, hget]
  refine ⟨s2i, hcast, ?_, ?_, ?_⟩
  · rw [hleaf]
    cases (body.get "script").isNil <;> simp
  · intro h
    have hl : leaf s2i = true := by rw [hleaf, h]; rfl
    have hentry : ∀ r, transformV3Entry decode r k (Value.imap body)
        = (match decode s2i { TaskDef.zero with Name := k } with
          | .error err => .panic (Error.withStack err).text
          | .ok t' => .ret t') := by
      intro r
      simp only [transformV3Entry, hcast, hl, if_true]
    refine ⟨hentry recurse, ?_⟩
    intro depth rest
    cases depth with
    | zero =>
      simp only [TransformV3TaskDefMapToArray, transformV3Loop, hentry]
      cases decode s2i { TaskDef.zero with Name := k } <;> rfl
    | succ n =>
      simp only [TransformV3TaskDefMapToArray, transformV3Loop, hentry]
      cases decode s2i { TaskDef.zero with Name := k } <;> rfl
  · intro h
    have hl : leaf s2i = false := by rw [hleaf, h]; rfl
    have hentry : ∀ r, transformV3Entry decode r k (Value.imap body)
        = ((r s2i).bind fun taskDefs =>
            .ret { TaskDef.zero with Name := k, TaskDefs := taskDefs }) := by
      intro r
      simp only [transformV3Entry, hcast, hl, Bool.false_eq_true, if_false]
    refine ⟨hentry recurse, ?_⟩
    intro depth rest
    simp only [TransformV3TaskDefMapToArray, transformV3Loop, hentry]
    cases TransformV3TaskDefMapToArray decode depth s2i <;> rfl

theorem transformV3_leaf_iff_witness :
    TransformV3TaskDefMapToArray scriptDecoder 0
        [("build", Value.imap [(Value.str "script", Value.str "make")])]
      = .ret [some { TaskDef.zero with Name := "build", Script := "make" }] ∧
    TransformV3TaskDefMapToArray scriptDecoder 1
        [("ci", Value.imap
          [(Value.str "build", Value.imap [(Value.str "script", Value.str "make")])])]
      = .ret [some { TaskDef.zero with
                     Name := "ci",
                     TaskDefs := [some { TaskDef.zero with Name := "build", Script := "make" }] }] := by
  have hkeys : ∀ (body : RawMap) (key : String) (v : Value), body = [(Value.str key, v)] →
      ∀ kv ∈ body, ∃ key', kv.1 = Value.str key' := by
    intro body key v hbody kv hkv
    subst hbody
    rw [List.mem_singleton] at hkv
    exact ⟨key, by rw [hkv]⟩
  constructor
  · obtain ⟨s2i, hcast, _, hleaf, _⟩ :=
      transformV3_leaf_iff scriptDecoder (fun _ => .diverge) "build"
        [(Value.str "script", Value.str "make")] (hkeys _ "script" _ rfl)
    have hs : s2i = [("script", Value.str "make")] := by
      have h : CastKeysToStrings [(Value.str "script", Value.str "make")]
          = .ok [("script", Value.str "make")] := rfl
      rw [h] at hcast
      exact (Except.ok.inj hcast).symm
    subst hs
    exact (hleaf rfl).2 0 []
  · obtain ⟨s2i, hcast, _, _, hnode⟩ :=
      transformV3_leaf_iff scriptDecoder (fun _ => .diverge) "ci"
        [(Value.str "build", Value.imap [(Value.str "script", Value.str "make")])]
        (hkeys _ "build" _ rfl)
    have hs : s2i = [("build", Value.imap [(Value.str "script", Value.str "make")])] := by
      have h : CastKeysToStrings
          [(Value.str "build", Value.imap [(Value.str "script", Value.str "make")])]
          = .ok [("build", Value.imap [(Value.str "script", Value.str "make")])] := rfl
      rw [h] at hcast
      exact (Except.ok.inj hcast).symm
    subst hs
    exact (hnode rfl).2 0 []

/-- C17: a body with string keys whose `script` maps to a string `s` (the empty
string included) passes the leaf test, and the entry is the TaskDef decoded
from the body whatever the recursive call would do, so the body is not
recursed into. For the input `{k: {script: ""}}`, with a decoder that stores
the empty script and leaves the other fields alone, the result is the single
TaskDef named `k` with no child tasks, at every recursion bound. -/
theorem transformV3_script_string (decode : Decoder) (k : String) (body : RawMap) (s : String)
    (hkeys : ∀ kv ∈ body, ∃ key, kv.1 = Value.str key)
    (hscript : body.get "script" = Value.str s)
    (hdecode : decode [("script", Value.str "")] { TaskDef.zero with Name := k }
      = .ok { TaskDef.zero with Name := k, Script := "" }) :
    (∃ s2i, CastKeysToStrings body = .ok s2i ∧ leaf s2i = true ∧
      ∀ recurse, transformV3Entry decode recurse k (Value.imap body)
        = (match decode s2i { TaskDef.zero with Name := k } with
          | .error err => .panic (Error.withStack err).text
          | .ok t' => .ret t')) ∧
    (∀ depth,
      TransformV3TaskDefMapToArray decode depth
          [(k, Value.imap [(Value.str "script", Value.str "")])]
        = .ret [some
            ({ Name := k, Description := "", Inputs := [], TaskDefs := [], Script := "",
               Steps := [], Autoenv := false, Autodir := false,
               Interactive := false } : TaskDef)]) := by
  constructor
  · obtain ⟨s2i, hcast, hget⟩ := CastKeysToStrings_strKeys body hkeys
    have hl : leaf s2i = true := by
      simp only [leaf, hget, hscript, Value.isNil]
      rfl
    refine ⟨s2i, hcast, hl, fun recurse => ?_⟩
    simp only [transformV3Entry, hcast, hl, if_true]
  · intro depth
    have hd : decode [("script", Value.str "")]
        { Name := k, Description := "", Inputs := [], TaskDefs := [], Script := "",
          Steps := [], Autoenv := false, Autodir := false, Interactive := false }
        = .ok { Name := k, Description := "", Inputs := [], TaskDefs := [], Script := "",
                Steps := [], Autoenv := false, Autodir := false, Interactive := false } :=
      hdecode
    cases depth <;>
      simp [TransformV3TaskDefMapToArray, transformV3Loop, transformV3Entry, CastKeysToStrings,
        leaf, StrMap.get, Value.isNil, TaskDef.zero, hd, Outcome.bind]

theorem transformV3_script_string_witness :
    TransformV3TaskDefMapToArray scriptDecoder 0
        [("k", Value.imap [(Value.str "script", Value.str "")])]
      = .ret [some
          ({ Name := "k", Description := "", Inputs := [], TaskDefs := [], Script := "",
             Steps := [], Autoenv := false, Autodir := false,
             Interactive := false } : TaskDef)] :=
  (transformV3_script_string scriptDecoder "k" [(Value.str "script", Value.str "")] ""
    (by
      intro kv hkv
      rw [List.mem_singleton] at hkv
      exact ⟨"script", by rw [hkv]⟩)
    rfl rfl).2 0

/-! ## The resolved task: leaf or composite, fields, inputs -/

theorem TransformV2_length (m : List (String × Option TaskDef)) (result : List (Option TaskDef))
    (h : TransformV2FlowConfigMapToArray m = .ret result) : result.length = m.length := by
  induction m generalizing result with
  | nil =>
    simp only [TransformV2FlowConfigMapToArray, Outcome.ret.injEq] at h
    subst h
    rfl
  | cons kb rest ih =>
    obtain ⟨k, b⟩ := kb
    cases b with
    | none => simp [TransformV2FlowConfigMapToArray] at h
    | some t2 =>
      simp only [TransformV2FlowConfigMapToArray] at h
      cases hr : TransformV2FlowConfigMapToArray rest with
      | ret r =>
        simp only [hr, Outcome.bind, Outcome.ret.injEq] at h
        subst h
        simp [ih r hr]
      | panic msg => simp [hr, Outcome.bind] at h
      | diverge => simp [hr, Outcome.bind] at h

theorem readStepsLoop_length (depth : Nat) (stepLoaders : List StepLoader)
    (stepDefs : List (Option RawMap)) (i : Nat) (acc steps : List (Option Step))
    (h : readStepsLoop depth stepLoaders stepDefs i acc = .ret (steps, none)) :
    steps.length = acc.length + stepDefs.length := by
  induction stepDefs generalizing i acc with
  | nil =>
    simp only [readStepsLoop, Outcome.ret.injEq, Prod.mk.injEq, and_true] at h
    subst h
    rfl
  | cons sd rest ih =>
    simp only [readStepsLoop] at h
    cases ha : assignDefaultName sd (fmt.Sprintf "step-%d" [i + 1]) with
    | panic msg => simp [ha] at h
    | diverge => simp [ha] at h
    | ret named =>
      simp only [ha] at h
      cases hc : CastKeysToStrings (named.getD []) with
      | error e => simp [hc] at h
      | ok conv =>
        simp only [hc] at h
        cases hl : LoadStep depth stepLoaders (NewStepDef conv) with
        | ret r =>
          obtain ⟨s, e⟩ := r
          cases e with
          | none =>
            simp only [hl] at h
            rw [ih (i + 1) (acc ++ [s]) h]
            simp only [List.length_append, List.length_cons, List.length_nil]
            omega
          | some e => simp [hl, errors.Wrapf] at h
        | panic msg => simp [hl] at h
        | diverge => simp [hl] at h

theorem readSteps_nonempty (depth : Nat) (stepLoaders : List StepLoader) (script : String)
    (runner : Option StrMap) (stepDefs : List (Option RawMap)) (steps : List (Option Step))
    (h : readStepsFromStepDefs depth stepLoaders script runner stepDefs = .ret (steps, none))
    (hne : script ≠ "" ∨ stepDefs ≠ []) : steps ≠ [] := by
  unfold readStepsFromStepDefs at h
  by_cases hs : script = ""
  · have hd : stepDefs ≠ [] := by
      rcases hne with hne | hne
      · exact absurd hs hne
      · exact hne
    simp only [hs, ne_eq, not_true_eq_false, if_false] at h
    have hlen := readStepsLoop_length depth stepLoaders stepDefs 0 [] steps h
    intro hnil
    rw [hnil] at hlen
    have : stepDefs.length = 0 := by simpa using hlen.symm
    exact hd (List.length_eq_zero.mp this)
  · simp only [ne_eq, hs, not_false_eq_true, if_true] at h
    split at h
    · simp at h
    · cases hl : LoadStep depth stepLoaders (NewStepDef (scriptStepRaw script runner)) with
      | ret r =>
        obtain ⟨s, e⟩ := r
        cases e with
        | none =>
          simp only [hl, Outcome.ret.injEq, Prod.mk.injEq, and_true] at h
          rw [← h]
          simp
        | some e => simp [hl] at h
      | panic msg => simp [hl] at h
      | diverge => simp [hl] at h

theorem unmarshalV1_inv (depth : Nat) (stepLoaders : List StepLoader) (t : TaskDef)
    (v1 : TaskDefV1) (t' : TaskDef)
    (h : unmarshalV1 depth stepLoaders t v1 = .ret (t', none)) :
    ∃ inputs steps,
      resolveInputs v1.Inputs v1.Inputs v1.Parameters v1.Options = .ret inputs ∧
      readStepsFromStepDefs depth stepLoaders v1.Script v1.Runner v1.StepDefs
        = .ret (steps, none) ∧
      t'.TaskDefs = v1.TaskDefs ∧ t'.Steps = steps ∧ t'.Inputs = inputs := by
  unfold unmarshalV1 at h
  cases hi : resolveInputs v1.Inputs v1.Inputs v1.Parameters v1.Options with
  | ret inputs =>
    simp only [hi, Outcome.bind] at h
    cases hs : readStepsFromStepDefs depth stepLoaders v1.Script v1.Runner v1.StepDefs with
    | ret r =>
      obtain ⟨steps, e⟩ := r
      cases e with
      | none =>
        simp only [hs, errors.WithStack, Outcome.ret.injEq, Prod.mk.injEq, and_true] at h
        subst h
        exact ⟨inputs, steps, rfl, rfl, rfl, rfl, rfl⟩
      | some e => simp [hs, errors.Wrapf] at h
    | panic msg => simp [hs] at h
    | diverge => simp [hs] at h
  | panic msg => simp [hi, Outcome.bind] at h
  | diverge => simp [hi, Outcome.bind] at h

theorem unmarshalV2_inv (depth : Nat) (stepLoaders : List StepLoader) (t : TaskDef)
    (unmarshal : Unmarshal) (t' : TaskDef)
    (h : unmarshalV2 depth stepLoaders t unmarshal = .ret (t', none)) :
    ∃ v2 e2 script taskDefs steps,
      unmarshal.v2 (some TaskDefV2.initial) = (some v2, e2) ∧
      v2Error v2 script e2 = none ∧
      TransformV2FlowConfigMapToArray v2.TaskDefs = .ret taskDefs ∧
      readStepsFromStepDefs depth stepLoaders script v2.Runner v2.StepDefs
        = .ret (steps, none) ∧
      t'.TaskDefs = taskDefs ∧ t'.Steps = steps := by
  unfold unmarshalV2 at h
  cases hu : unmarshal.v2 (some TaskDefV2.initial) with
  | mk p e2 =>
    cases p with
    | none => simp [hu] at h
    | some v2 =>
      simp only [hu] at h
      cases hsc : resolveScript v2.Script with
      | ret script =>
        simp only [hsc, Outcome.bind] at h
        cases hE : v2Error v2 script e2 with
        | some e => simp [hE, errors.WithStack] at h
        | none =>
          simp only [hE] at h
          cases hi : resolveInputs t.Inputs v2.Inputs v2.Parameters v2.Options with
          | ret inputs =>
            simp only [hi] at h
            cases ht : TransformV2FlowConfigMapToArray v2.TaskDefs with
            | ret taskDefs =>
              simp only [ht] at h
              cases hs : readStepsFromStepDefs depth stepLoaders script v2.Runner v2.StepDefs with
              | ret r =>
                obtain ⟨steps, e⟩ := r
                cases e with
                | none =>
                  simp only [hs, errors.WithStack, Outcome.ret.injEq, Prod.mk.injEq,
                    and_true] at h
                  subst h
                  exact ⟨v2, e2, script, taskDefs, steps, rfl, hE, ht, hs, rfl, rfl⟩
                | some e => simp [hs, errors.Wrapf] at h
              | panic msg => simp [hs] at h
              | diverge => simp [hs] at h
            | panic msg => simp [ht] at h
            | diverge => simp [ht] at h
          | panic msg => simp [hi] at h
          | diverge => simp [hi] at h
      | panic msg => simp [hsc, Outcome.bind] at h
      | diverge => simp [hsc, Outcome.bind] at h

theorem v2Error_none_cases (v2 : TaskDefV2) (script : String) (e2 : Option Error)
    (h : v2Error v2 script e2 = none) :
    v2.TaskDefs ≠ [] ∨ script ≠ "" ∨ v2.StepDefs ≠ [] := by
  unfold v2Error at h
  by_cases ht : v2.TaskDefs = []
  · by_cases hs : script = ""
    · by_cases hd : v2.StepDefs = []
      · simp [ht, hs, hd] at h
      · exact Or.inr (Or.inr hd)
    · exact Or.inr (Or.inl hs)
  · exact Or.inl ht

/-- C18 (counterexample): the version-1 document `name: build` is accepted on
its name alone and `UnmarshalYAML` returns a `nil` error, with a TaskDef whose
`Steps` and `TaskDefs` are both empty. -/
theorem UnmarshalYAML_name_only :
    ∃ t', TaskDef.zero.UnmarshalYAML 0 (registered [succeedingLoader "S"]) docV1NameOnly
        = .ret (t', none) ∧
      t'.Name = "build" ∧ t'.Steps = [] ∧ t'.TaskDefs = [] ∧
      ¬(t'.Steps ≠ [] ∨ t'.TaskDefs ≠ []) :=
  ⟨_, rfl, rfl, rfl, rfl, fun h => h.elim (fun h => h rfl) (fun h => h rfl)⟩

/-- C18 (amended): a TaskDef that `UnmarshalYAML` produces with a `nil` error has
a non-empty `Steps` or a non-empty `TaskDefs` whenever it comes from the
version-2 branch, or from the version-1 branch on a document with a non-empty
`tasks`, `script` or `steps`. -/
theorem UnmarshalYAML_leaf_or_composite (depth : Nat) (stepLoaders : List StepLoader)
    (t : TaskDef) (unmarshal : Unmarshal) (t' : TaskDef)
    (hv3 : unmarshal.v3 = none)
    (hret : t.UnmarshalYAML depth stepLoaders unmarshal = .ret (t', none))
    (hbranch :
      (∃ v1 e, unmarshal.v1 TaskDefV1.initial = (v1, e) ∧ v1Error v1 e = none ∧
        (v1.TaskDefs ≠ [] ∨ v1.Script ≠ "" ∨ v1.StepDefs ≠ [])) ∨
      (∃ v1 e1 e1', unmarshal.v1 TaskDefV1.initial = (v1, e1) ∧ v1Error v1 e1 = some e1')) :
    t'.Steps ≠ [] ∨ t'.TaskDefs ≠ [] := by
  rcases hbranch with ⟨v1, e, hv1, hacc, hdoc⟩ | ⟨v1, e1, e1', hv1, hrej⟩
  · rw [UnmarshalYAML_v1 depth stepLoaders t unmarshal v1 e hv3 hv1 hacc] at hret
    obtain ⟨inputs, steps, _, hsteps, htd, hst, _⟩ :=
      unmarshalV1_inv depth stepLoaders t v1 t' hret
    rcases hdoc with hdoc | hdoc | hdoc
    · exact Or.inr (by rw [htd]; exact hdoc)
    · exact Or.inl (by
        rw [hst]
        exact readSteps_nonempty depth stepLoaders _ _ _ steps hsteps (Or.inl hdoc))
    · exact Or.inl (by
        rw [hst]
        exact readSteps_nonempty depth stepLoaders _ _ _ steps hsteps (Or.inr hdoc))
  · rw [UnmarshalYAML_v2 depth stepLoaders t unmarshal v1 e1 e1' hv3 hv1 hrej] at hret
    obtain ⟨v2, e2, script, taskDefs, steps, _, hacc, htasks, hsteps, htd, hst⟩ :=
      unmarshalV2_inv depth stepLoaders t unmarshal t' hret
    rcases v2Error_none_cases v2 script e2 hacc with hdoc | hdoc | hdoc
    · refine Or.inr ?_
      rw [htd]
      intro hnil
      have hlen := TransformV2_length v2.TaskDefs taskDefs htasks
      rw [hnil] at hlen
      exact hdoc (List.length_eq_zero.mp hlen.symm)
    · exact Or.inl (by
        rw [hst]
        exact readSteps_nonempty depth stepLoaders _ _ _ steps hsteps (Or.inl hdoc))
    · exact Or.inl (by
        rw [hst]
        exact readSteps_nonempty depth stepLoaders _ _ _ steps hsteps (Or.inr hdoc))

theorem UnmarshalYAML_leaf_or_composite_witness :
    ∃ t', TaskDef.zero.UnmarshalYAML 0 (registered [succeedingLoader "S"]) docV2Params
        = .ret (t', none) ∧
      (t'.Steps ≠ [] ∨ t'.TaskDefs ≠ []) :=
  ⟨_, rfl,
    UnmarshalYAML_leaf_or_composite 0 (registered [succeedingLoader "S"]) TaskDef.zero
      docV2Params _ rfl rfl
      (Or.inr ⟨_, none, Error.errorf "Not v1 format: Both `name` and `tasks` are empty",
        rfl, by decide⟩)⟩

/-- C19: for a document accepted as version 1, when the input declarations
resolve (so that step synthesis is reached) and step synthesis succeeds with
`steps`, `UnmarshalYAML` returns a `nil` error and the receiver has the
document's `Name`, its `tasks` array as `TaskDefs` (same children, same order,
same number), and its `Description`, `Script`, `Autoenv`, `Autodir` and
`Interactive`. -/
theorem UnmarshalYAML_v1_fields (depth : Nat) (stepLoaders : List StepLoader) (t : TaskDef)
    (unmarshal : Unmarshal) (v1 : TaskDefV1) (e : Option Error)
    (inputs : List (Option InputConfig)) (steps : List (Option Step))
    (hv3 : unmarshal.v3 = none) (hv1 : unmarshal.v1 TaskDefV1.initial = (v1, e))
    (haccept : v1Error v1 e = none)
    (hinputs : resolveInputs v1.Inputs v1.Inputs v1.Parameters v1.Options = .ret inputs)
    (hsteps : readStepsFromStepDefs depth stepLoaders v1.Script v1.Runner v1.StepDefs
      = .ret (steps, none)) :
    ∃ t', t.UnmarshalYAML depth stepLoaders unmarshal = .ret (t', none) ∧
      t'.Name = v1.Name ∧ t'.TaskDefs = v1.TaskDefs ∧
      t'.TaskDefs.length = v1.TaskDefs.length ∧
      t'.Description = v1.Description ∧ t'.Script = v1.Script ∧
      t'.Autoenv = v1.Autoenv ∧ t'.Autodir = v1.Autodir ∧
      t'.Interactive = v1.Interactive ∧ t'.Steps = steps := by
  rw [UnmarshalYAML_v1 depth stepLoaders t unmarshal v1 e hv3 hv1 haccept]
  exact ⟨_, unmarshalV1_ok depth stepLoaders t v1 inputs steps hinputs hsteps,
    rfl, rfl, rfl, rfl, rfl, rfl, rfl, rfl, rfl⟩

theorem UnmarshalYAML_v1_fields_witness :
    ∃ t', TaskDef.zero.UnmarshalYAML 0 (registered [succeedingLoader "S"]) docV1Tasks
        = .ret (t', none) ∧
      t'.Name = "build" ∧
      t'.TaskDefs = [some (bodyWithScript "compile" "go build"),
                     some (bodyWithScript "lint" "go vet")] ∧
      t'.TaskDefs.length = 2 ∧
      t'.Description = "builds" ∧ t'.Script = "make" ∧
      t'.Autoenv = true ∧ t'.Autodir = false ∧
      t'.Interactive = false ∧ t'.Steps = [some ⟨"S"⟩] :=
  UnmarshalYAML_v1_fields 0 (registered [succeedingLoader "S"]) TaskDef.zero docV1Tasks
    (docV1Tasks.v1 TaskDefV1.initial).1 none [] [some ⟨"S"⟩] rfl rfl (by decide) rfl rfl

/-- C20 (the failing input): on a receiver that already holds the input `old`,
the version-2 document `script: make, parameters: [a]` leaves
`Inputs = [old, a]`: the prior entry is retained. The version-1 document with
the same declarations, on the same receiver, leaves `Inputs = [a]`. -/
theorem UnmarshalYAML_v2_keeps_prior_inputs :
    (∃ t', receiverWithInput.UnmarshalYAML 0 (registered [succeedingLoader "S"]) docV2Params
        = .ret (t', none) ∧
      t'.Inputs = [some (inputNamed "old"), some (parameterInput 0 (parameterNamed "a"))]) ∧
    (∃ t', receiverWithInput.UnmarshalYAML 0 (registered [succeedingLoader "S"]) docV1Params
        = .ret (t', none) ∧
      t'.Inputs = [some (parameterInput 0 (parameterNamed "a"))]) :=
  ⟨⟨_, rfl, rfl⟩, ⟨_, rfl, rfl⟩⟩

end Variant
